import Mathlib

/-!
# Wiznet W5100 / W5200 driver (`libraries/Ethernet/src/utility/w5100.cpp`)

A shallow embedding of the driver core: the socket buffer manager
(`send_data_processing_offset`, `recv_data_processing`, `read_data`), the
debounced size reads (`getTXFreeSize`, `getRXReceivedSize`), the chip
autodetection (`autodetect`, `exploratory_modewrite`), the register protocol of
the two variants (`W5100Module` and `W5200Module`, `read` and `write`) and the
command executor (`execCmdSn`).

Machine integers are natural numbers, truncated explicitly where the C++ code
stores them into a `uint8_t` or `uint16_t`.
-/

namespace W5100

/-! ## Machine integers and build variants -/

/-- Truncation to `uint16_t`. -/
def u16 (n : Nat) : Nat := n % 65536

/-- Truncation to `uint8_t`. -/
def u8 (n : Nat) : Nat := n % 256

/-- The two preprocessor branches of the file: `ARDUINO_ARCH_AVR` defined, or not. -/
inductive Build where
  | avr
  | other
  deriving DecidableEq, Repr

/-- The sum `x + y` of two `uint16_t` operands as the compiler evaluates it: on AVR `int`
is 16 bits wide, so the operands stay `unsigned int` and the sum wraps modulo 2^16; on the
other targets they are promoted to a 32-bit `int` and the sum is exact. -/
def addPromoted (b : Build) (x y : Nat) : Nat :=
  match b with
  | Build.avr => u16 (x + y)
  | Build.other => x + y

/-- The difference `x - y` of two `uint16_t` operands, stored into a `uint16_t`. -/
def sub16 (x y : Nat) : Nat := u16 (x + 65536 - y)

/-! ## The chip as seen through the register protocol -/

/-- The constants and per-socket window bases that `utility/w5100.h` declares
(`SSIZE`, `SMASK`, `RSIZE`, `RMASK`, `get_sock_tx_addr`, `get_sock_rx_addr`); the
header is not part of the sources, so they are parameters. -/
structure Layout where
  SSIZE : Nat
  SMASK : Nat
  RSIZE : Nat
  RMASK : Nat
  get_sock_tx_addr : Nat → Nat
  get_sock_rx_addr : Nat → Nat

/-- One call made by the socket buffer manager on the register protocol. -/
inductive Access where
  | write (addr : Nat) (data : List Nat)
  | read (addr : Nat) (len : Nat)
  | readSnTX_WR (s : Nat)
  | writeSnTX_WR (s : Nat) (v : Nat)
  | readSnRX_RD (s : Nat)
  | writeSnRX_RD (s : Nat) (v : Nat)
  | readSnCR (s : Nat)
  | writeSnCR (s : Nat) (v : Nat)
  deriving DecidableEq, Repr

/-- Chip state: the byte memory by 16-bit address, the two driver-owned pointer registers
of every socket, and the calls issued so far (oldest first). -/
structure Chip where
  mem : Nat → Nat
  SnTX_WR : Nat → Nat
  SnRX_RD : Nat → Nat
  log : List Access

/-- Store `bytes` at consecutive chip addresses from `addr` on, the address kept in a
`uint16_t` (the `_addr++` of `W5100Module::write`). -/
def storeBytes (mem : Nat → Nat) (addr : Nat) : List Nat → Nat → Nat
  | [] => mem
  | b :: bs => storeBytes (Function.update mem (u16 addr) b) (addr + 1) bs

/-- Block `write(_addr, _buf, _len)`: byte `_buf[i]` goes to address `_addr + i`. -/
def write (c : Chip) (_addr : Nat) (_buf : Nat → Nat) (_len : Nat) : Chip :=
  let bytes := (List.range _len).map _buf
  { c with mem := storeBytes c.mem (u16 _addr) bytes,
           log := c.log ++ [Access.write (u16 _addr) bytes] }

/-- Copy `bytes` into the host buffer `buf` from index `off` on. -/
def blit (buf : Nat → Nat) (off : Nat) (bytes : List Nat) : Nat → Nat :=
  fun i => if off ≤ i ∧ i < off + bytes.length then bytes.getD (i - off) 0 else buf i

/-- Block `read(_addr, _buf, _len)`, the destination pointer `_buf` being `buf + off`:
`_buf[i]` receives the byte at address `_addr + i`. -/
def read (c : Chip) (_addr : Nat) (buf : Nat → Nat) (off : Nat) (_len : Nat) :
    (Nat → Nat) × Chip :=
  let bytes := (List.range _len).map (fun i => c.mem (u16 (u16 _addr + i)))
  (blit buf off bytes, { c with log := c.log ++ [Access.read (u16 _addr) _len] })

/-- Modelled from the spec: the accessor `readSnTX_WR` that a macro of `utility/w5100.h`
generates; it returns the socket's 16-bit TX write pointer. -/
def readSnTX_WR (c : Chip) (s : Nat) : Nat × Chip :=
  (u16 (c.SnTX_WR s), { c with log := c.log ++ [Access.readSnTX_WR s] })

/-- Modelled from the spec: the accessor `writeSnTX_WR` that a macro of `utility/w5100.h`
generates; it persists the socket's 16-bit TX write pointer. -/
def writeSnTX_WR (c : Chip) (s : Nat) (v : Nat) : Chip :=
  { c with SnTX_WR := Function.update c.SnTX_WR s (u16 v),
           log := c.log ++ [Access.writeSnTX_WR s (u16 v)] }

/-- Modelled from the spec: the accessor `readSnRX_RD` that a macro of `utility/w5100.h`
generates; it returns the socket's 16-bit RX read pointer. -/
def readSnRX_RD (c : Chip) (s : Nat) : Nat × Chip :=
  (u16 (c.SnRX_RD s), { c with log := c.log ++ [Access.readSnRX_RD s] })

/-- Modelled from the spec: the accessor `writeSnRX_RD` that a macro of `utility/w5100.h`
generates; it persists the socket's 16-bit RX read pointer. -/
def writeSnRX_RD (c : Chip) (s : Nat) (v : Nat) : Chip :=
  { c with SnRX_RD := Function.update c.SnRX_RD s (u16 v),
           log := c.log ++ [Access.writeSnRX_RD s (u16 v)] }

/-! ## Socket buffer manager -/

/-- `WiznetModule::send_data_processing_offset`. -/
def send_data_processing_offset (L : Layout) (b : Build) (c : Chip) (s data_offset : Nat)
    (data : Nat → Nat) (len : Nat) : Chip :=
  let (ptr, c) := readSnTX_WR c s
  let ptr := u16 (ptr + data_offset)
  let offset := ptr &&& L.SMASK
  let dstAddr := u16 (offset + L.get_sock_tx_addr s)
  let c :=
    if addPromoted b offset len > L.SSIZE then
      let size := sub16 L.SSIZE offset
      let c := write c dstAddr data size
      write c (L.get_sock_tx_addr s) (fun i => data (size + i)) (sub16 len size)
    else
      write c dstAddr data len
  let ptr := u16 (ptr + len)
  writeSnTX_WR c s ptr

/-- `WiznetModule::send_data_processing`. -/
def send_data_processing (L : Layout) (b : Build) (c : Chip) (s : Nat)
    (data : Nat → Nat) (len : Nat) : Chip :=
  send_data_processing_offset L b c s 0 data len

/-- `WiznetModule::read_data`; `dst` is the host buffer, filled from index 0. -/
def read_data (L : Layout) (b : Build) (c : Chip) (s src : Nat) (dst : Nat → Nat)
    (len : Nat) : (Nat → Nat) × Chip :=
  let src_mask := src &&& L.RMASK
  let src_ptr := u16 (L.get_sock_rx_addr s + src_mask)
  if addPromoted b src_mask len > L.RSIZE then
    let size := sub16 L.RSIZE src_mask
    let (dst, c) := read c src_ptr dst 0 size
    read c (L.get_sock_rx_addr s) dst size (sub16 len size)
  else
    read c src_ptr dst 0 len

/-- `WiznetModule::recv_data_processing`. -/
def recv_data_processing (L : Layout) (b : Build) (c : Chip) (s : Nat) (data : Nat → Nat)
    (len peek : Nat) : (Nat → Nat) × Chip :=
  let (ptr, c) := readSnRX_RD c s
  let (data, c) := read_data L b c s ptr data len
  if peek = 0 then
    let ptr := u16 (ptr + len)
    (data, writeSnRX_RD c s ptr)
  else
    (data, c)

/-- The single-byte stores that the block writes of a call log perform, in order:
chip address and byte. -/
def txStores : List Access → List (Nat × Nat)
  | [] => []
  | Access.write addr data :: rest =>
      (List.range data.length).map (fun i => (u16 (addr + i), data.getD i 0)) ++ txStores rest
  | _ :: rest => txStores rest

/-- A small layout for evaluation: 2048-byte windows, TX arena at 0x4000, RX arena at
0x6000 (the W5100 memory map). -/
def demoLayout : Layout where
  SSIZE := 2048
  SMASK := 2047
  RSIZE := 2048
  RMASK := 2047
  get_sock_tx_addr := fun s => 0x4000 + s * 2048
  get_sock_rx_addr := fun s => 0x6000 + s * 2048

/-- A chip whose memory holds `a % 251` at address `a`, with the given pointer registers
and an empty log. -/
def demoChip (txwr rxrd : Nat) : Chip where
  mem := fun a => a % 251
  SnTX_WR := fun _ => txwr
  SnRX_RD := fun _ => rxrd
  log := []


/-- Whether a logged call persists one of the two pointer registers. -/
def Access.isPointerWrite : Access → Bool
  | Access.writeSnTX_WR _ _ => true
  | Access.writeSnRX_RD _ _ => true
  | _ => false

/-- The pointer-register writes of a call log, in order. -/
def pointerWrites (log : List Access) : List Access :=
  log.filter Access.isPointerWrite

/-- The chip address of byte `i` of a transfer that starts at pointer `p` in the window of
size `W` at `base`, as the specification words it: written linearly into an infinite
arena, the offset then reduced modulo `W`. -/
def wrappedAddr (base W p i : Nat) : Nat := base + (p + i) % W

/-! ## Debounced size reads -/

/-- The `do { ... } while (val != val1)` loop of `getTXFreeSize` and `getRXReceivedSize`,
entered with the current `val` after `n` reads of the size register. The list holds the
values that the next reads of the register return. The result is the value returned
together with the total number of reads performed, or `none` when the loop asks for a
read beyond the end of the list. -/
def sizeLoop (val n : Nat) : List Nat → Option (Nat × Nat)
  | [] => none
  | [val1] =>
      if val1 ≠ 0 then none
      else if val ≠ val1 then none else some (val, n + 1)
  | val1 :: val' :: rest =>
      if val1 ≠ 0 then
        if val' ≠ val1 then sizeLoop val' (n + 2) rest else some (val', n + 2)
      else
        if val ≠ val1 then sizeLoop val (n + 1) (val' :: rest) else some (val, n + 1)

/-- `WiznetModule::getTXFreeSize`; `readSnTX_FSR s` lists the values that successive
reads of the socket's TX free size register return. -/
def getTXFreeSize (readSnTX_FSR : Nat → List Nat) (s : Nat) : Option (Nat × Nat) :=
  sizeLoop 0 0 (readSnTX_FSR s)

/-- `WiznetModule::getRXReceivedSize`; `readSnRX_RSR s` lists the values that successive
reads of the socket's RX received size register return. -/
def getRXReceivedSize (readSnRX_RSR : Nat → List Nat) (s : Nat) : Option (Nat × Nat) :=
  sizeLoop 0 0 (readSnRX_RSR s)

/-- The register reads of a run of loop iterations, each given as its pair of reads
(first read, confirming read). -/
def pairReads : List (Nat × Nat) → List Nat
  | [] => []
  | p :: rest => p.1 :: p.2 :: pairReads rest

/-! ## The SPI bus and chip autodetection -/

/-- `W5100_WRITE_FLAG`. -/
def W5100_WRITE_FLAG : Nat := 0xF0

/-- `W5100_READ_FLAG`. -/
def W5100_READ_FLAG : Nat := 0x0F

/-- One call on the bus transport. `transfer` is the AVR `SPI.transfer(data)`, framed by
`setSS` / `resetSS`; `transferCS` is `SPI.transfer(SPI_CS, data, mode)` of the other
targets, `last` telling `SPI_LAST` (also the default when the mode is left out) from
`SPI_CONTINUE`; `transferDefault` is the two-argument call `SPI.transfer(data, mode)` of
the other targets, whose first argument is the byte sent and which names no pin. -/
inductive SpiOp where
  | initSS
  | setSS
  | resetSS
  | spiBegin
  | spiBeginCS
  | setClockDivider (divider : Nat)
  | setDataMode
  | delay (ms : Nat)
  | beginTransaction
  | endTransaction
  | transfer (data : Nat)
  | transferCS (data : Nat) (last : Bool)
  | transferDefault (data : Nat) (last : Bool)
  deriving DecidableEq, Repr

/-- A device on the bus: any state machine that answers every bus call with a byte (the
answer is used for transfers only). -/
structure Bus (σ : Type) where
  step : σ → SpiOp → σ × Nat

/-- The bus as the driver sees it: the state of the device and the calls made so far
(oldest first). -/
structure Spi (σ : Type) where
  dev : σ
  log : List SpiOp

/-- Perform one bus call; the answer is a `uint8_t`. -/
def spi {σ : Type} (B : Bus σ) (op : SpiOp) (st : Spi σ) : Nat × Spi σ :=
  (u8 (B.step st.dev op).2, { dev := (B.step st.dev op).1, log := st.log ++ [op] })

/-- Perform bus calls in order, dropping the answers. -/
def spiAll {σ : Type} (B : Bus σ) : List SpiOp → Spi σ → Spi σ
  | [], st => st
  | op :: ops, st => spiAll B ops (spi B op st).2

/-- `WiznetModule::exploratory_modewrite`: three bus acquisitions, a W5100 mode register
write of `mode_value`, a W5100 mode register read whose fourth exchange is the result,
and the loop `for (i = 4; i < mode_value; i++)` of dummy exchanges. -/
def exploratory_modewrite {σ : Type} (B : Bus σ) (bld : Build) (mode_value : Nat)
    (st : Spi σ) : Nat × Spi σ :=
  let mode_value := u8 mode_value
  match bld with
  | Build.avr =>
    let st := spiAll B [SpiOp.beginTransaction, SpiOp.setSS,
      SpiOp.transfer W5100_WRITE_FLAG, SpiOp.transfer 0x00, SpiOp.transfer 0x00,
      SpiOp.transfer mode_value, SpiOp.resetSS, SpiOp.endTransaction] st
    let st := spiAll B [SpiOp.beginTransaction, SpiOp.setSS,
      SpiOp.transfer W5100_READ_FLAG, SpiOp.transfer 0x00, SpiOp.transfer 0x00] st
    let (result, st) := spi B (SpiOp.transfer 0x00) st
    let st := spiAll B [SpiOp.resetSS, SpiOp.endTransaction] st
    let st := spiAll B ([SpiOp.beginTransaction, SpiOp.setSS]
      ++ (List.range' 4 (mode_value - 4)).map (fun _ => SpiOp.transfer 0x00)
      ++ [SpiOp.resetSS, SpiOp.endTransaction]) st
    (result, st)
  | Build.other =>
    let st := spiAll B [SpiOp.beginTransaction,
      SpiOp.transferCS W5100_WRITE_FLAG false, SpiOp.transferCS 0x00 false,
      SpiOp.transferCS 0x00 false, SpiOp.transferCS mode_value true,
      SpiOp.endTransaction] st
    let st := spiAll B [SpiOp.beginTransaction,
      SpiOp.transferCS W5100_READ_FLAG false, SpiOp.transferCS 0x00 false,
      SpiOp.transferCS 0x00 false] st
    let (result, st) := spi B (SpiOp.transferCS 0x00 true) st
    let st := spiAll B [SpiOp.endTransaction] st
    let st := spiAll B ([SpiOp.beginTransaction]
      ++ (List.range' 4 (mode_value - 4)).map (fun _ => SpiOp.transferCS 0x00 true)
      ++ [SpiOp.endTransaction]) st
    (result, st)

/-- The mode register bits `RST`, `PINGBLOCK` and `PPOE` of `WiznetModule`, declared in
`utility/w5100.h`; the header is not part of the sources, so they are parameters. -/
structure ModeBits where
  RST : Nat
  PINGBLOCK : Nat
  PPOE : Nat

/-- Modelled from the spec: the W5100 mode register bits, `RST = 0x80`,
`PINGBLOCK = 0x10`, `PPOE = 0x08`. -/
def w5100ModeBits : ModeBits where
  RST := 0x80
  PINGBLOCK := 0x10
  PPOE := 0x08

/-- The protocol implementation that `autodetect` instantiates. -/
inductive Variant where
  | W5100Module
  | W5200Module
  deriving DecidableEq, Repr

/-- The bus set-up at the head of `WiznetModule::autodetect`. -/
def autodetectSetup {σ : Type} (B : Bus σ) (bld : Build) (st : Spi σ) : Spi σ :=
  match bld with
  | Build.avr => spiAll B [SpiOp.initSS, SpiOp.resetSS, SpiOp.spiBegin] st
  | Build.other =>
    spiAll B [SpiOp.delay 300, SpiOp.spiBeginCS, SpiOp.setClockDivider 21,
      SpiOp.setDataMode] st

/-- `WiznetModule::autodetect`; the chain of `&&` probes only as long as the readbacks
match. -/
def autodetect {σ : Type} (B : Bus σ) (bld : Build) (M : ModeBits) (st : Spi σ) :
    Variant × Spi σ :=
  let st := autodetectSetup B bld st
  let (r, st) := exploratory_modewrite B bld M.RST st
  if r = 0 then
    let (r, st) := exploratory_modewrite B bld M.PINGBLOCK st
    if r = M.PINGBLOCK then
      let (r, st) := exploratory_modewrite B bld M.PPOE st
      if r = M.PPOE then
        let (r, st) := exploratory_modewrite B bld (M.RST ||| M.PPOE) st
        if r = 0 then (Variant.W5100Module, st) else (Variant.W5200Module, st)
      else (Variant.W5200Module, st)
    else (Variant.W5200Module, st)
  else (Variant.W5200Module, st)

/-- The readbacks of the four probes `RST`, `PINGBLOCK`, `PPOE`, `RST|PPOE` when all four
are issued in this order through `exploratory_modewrite` after the bus set-up. -/
def probeReadbacks {σ : Type} (B : Bus σ) (bld : Build) (M : ModeBits) (st : Spi σ) :
    Nat × Nat × Nat × Nat :=
  let st := autodetectSetup B bld st
  let (r₁, st) := exploratory_modewrite B bld M.RST st
  let (r₂, st) := exploratory_modewrite B bld M.PINGBLOCK st
  let (r₃, st) := exploratory_modewrite B bld M.PPOE st
  let (r₄, _) := exploratory_modewrite B bld (M.RST ||| M.PPOE) st
  (r₁, r₂, r₃, r₄)

/-- A simulated device for evaluating the probe, speaking the Variant A wire format
(`flag, addr_hi, addr_lo, data` per byte access) with one register, the mode register at
address 0. State: the bytes of the frame in progress and the mode register. A write
frame stores `latch data`; the fourth exchange of a read frame answers the register;
bytes outside a frame that are no command flag are ignored. -/
def modeRegisterDevice (latch : Nat → Nat) : Bus (List Nat × Nat) where
  step := fun dev op =>
    let exchange := fun (data : Nat) =>
      match dev.1 with
      | [] => if data = W5100_WRITE_FLAG ∨ data = W5100_READ_FLAG then (([data], dev.2), 0)
              else (([], dev.2), 0)
      | [f, hi, lo] =>
          if f = W5100_WRITE_FLAG then
            (([], if hi = 0 ∧ lo = 0 then latch data else dev.2), 0)
          else (([], dev.2), if hi = 0 ∧ lo = 0 then dev.2 else 0)
      | frame => ((frame ++ [data], dev.2), 0)
    match op with
    | SpiOp.transfer data => exchange data
    | SpiOp.transferCS data _ => exchange data
    | _ => (dev, 0)

/-- The simulated bus that perfectly echoes mode writes: every mode register read answers
the byte last written. -/
def echoDevice : Bus (List Nat × Nat) := modeRegisterDevice (fun data => data)

/-- The simulated bus that echoes mode writes except for the self-clearing reset bit: a
write with the `RST` bit (0x80) set leaves the register 0. -/
def selfClearingDevice : Bus (List Nat × Nat) :=
  modeRegisterDevice (fun data => if data &&& 0x80 ≠ 0 then 0 else data)

/-- The simulated bus that answers every exchange with the same fixed byte `c`. -/
def constantDevice (c : Nat) : Bus Unit where
  step := fun _ _ => ((), c)

/-! ## Register protocol of the two variants -/

/-- `W5200_WRITE_FLAG`. -/
def W5200_WRITE_FLAG : Nat := 0x80

/-- `W5200_READ_FLAG`. -/
def W5200_READ_FLAG : Nat := 0x00

/-- `W5100Module::write(uint16_t _addr, uint8_t _data)`. -/
def W5100Module.write {σ : Type} (B : Bus σ) (bld : Build) (_addr _data : Nat)
    (st : Spi σ) : Nat × Spi σ :=
  let _addr := u16 _addr
  match bld with
  | Build.avr =>
    (1, spiAll B [SpiOp.setSS, SpiOp.transfer W5100_WRITE_FLAG,
      SpiOp.transfer (_addr >>> 8), SpiOp.transfer (_addr &&& 0xFF),
      SpiOp.transfer _data, SpiOp.resetSS] st)
  | Build.other =>
    (1, spiAll B [SpiOp.transferCS W5100_WRITE_FLAG false,
      SpiOp.transferCS (_addr >>> 8) false, SpiOp.transferCS (_addr &&& 0xFF) false,
      SpiOp.transferCS _data true] st)

/-- `W5200Module::write(uint16_t _addr, uint8_t _data)`. -/
def W5200Module.write {σ : Type} (B : Bus σ) (bld : Build) (_addr _data : Nat)
    (st : Spi σ) : Nat × Spi σ :=
  let _addr := u16 _addr
  match bld with
  | Build.avr =>
    (1, spiAll B [SpiOp.setSS, SpiOp.transfer (_addr >>> 8),
      SpiOp.transfer (_addr &&& 0xFF), SpiOp.transfer W5200_WRITE_FLAG,
      SpiOp.transfer 0x01, SpiOp.transfer _data, SpiOp.resetSS] st)
  | Build.other =>
    (1, spiAll B [SpiOp.transferCS (_addr >>> 8) false,
      SpiOp.transferCS (_addr &&& 0xFF) false, SpiOp.transferCS W5200_WRITE_FLAG false,
      SpiOp.transferDefault 0x01 false, SpiOp.transferCS _data true] st)

/-- The `for` loop of `W5100Module::write(uint16_t, const uint8_t*, uint16_t)` with `n`
iterations to go, at address `_addr` and index `i`. -/
def W5100Module.write_loop {σ : Type} (B : Bus σ) (bld : Build) (_buf : Nat → Nat) :
    Nat → Nat → Nat → Spi σ → Spi σ
  | 0, _, _, st => st
  | n + 1, _addr, i, st =>
    let st :=
      match bld with
      | Build.avr =>
        spiAll B [SpiOp.setSS, SpiOp.transfer W5100_WRITE_FLAG,
          SpiOp.transfer (_addr >>> 8), SpiOp.transfer (_addr &&& 0xFF),
          SpiOp.transfer (_buf i), SpiOp.resetSS] st
      | Build.other =>
        spiAll B [SpiOp.transferCS W5100_WRITE_FLAG false,
          SpiOp.transferCS (_addr >>> 8) false, SpiOp.transferCS (_addr &&& 0xFF) false,
          SpiOp.transferCS (_buf i) true] st
    W5100Module.write_loop B bld _buf n (u16 (_addr + 1)) (i + 1) st

/-- `W5100Module::write(uint16_t _addr, const uint8_t *_buf, uint16_t _len)`. -/
def W5100Module.write_block {σ : Type} (B : Bus σ) (bld : Build) (_addr : Nat)
    (_buf : Nat → Nat) (_len : Nat) (st : Spi σ) : Nat × Spi σ :=
  (_len, W5100Module.write_loop B bld _buf _len (u16 _addr) 0 st)

/-- `W5200Module::write(uint16_t _addr, const uint8_t *_buf, uint16_t _len)`; on the
non-AVR targets the data byte with `i == _len - 1` is sent with `SPI_LAST`. -/
def W5200Module.write_block {σ : Type} (B : Bus σ) (bld : Build) (_addr : Nat)
    (_buf : Nat → Nat) (_len : Nat) (st : Spi σ) : Nat × Spi σ :=
  let _addr := u16 _addr
  match bld with
  | Build.avr =>
    (_len, spiAll B ([SpiOp.setSS, SpiOp.transfer (_addr >>> 8),
        SpiOp.transfer (_addr &&& 0xFF),
        SpiOp.transfer (W5200_WRITE_FLAG ||| ((_len &&& 0x7F00) >>> 8)),
        SpiOp.transfer (_len &&& 0xFF)]
      ++ (List.range _len).map (fun i => SpiOp.transfer (_buf i))
      ++ [SpiOp.resetSS]) st)
  | Build.other =>
    (_len, spiAll B ([SpiOp.transferCS (_addr >>> 8) false,
        SpiOp.transferCS (_addr &&& 0xFF) false,
        SpiOp.transferCS (W5200_WRITE_FLAG ||| ((_len &&& 0x7F00) >>> 8)) false,
        SpiOp.transferCS (_len &&& 0xFF) false]
      ++ (List.range _len).map (fun i => SpiOp.transferCS (_buf i) (decide (i + 1 = _len))))
      st)

/-- `W5100Module::read(uint16_t _addr)`. -/
def W5100Module.read {σ : Type} (B : Bus σ) (bld : Build) (_addr : Nat) (st : Spi σ) :
    Nat × Spi σ :=
  let _addr := u16 _addr
  match bld with
  | Build.avr =>
    let st := spiAll B [SpiOp.setSS, SpiOp.transfer W5100_READ_FLAG,
      SpiOp.transfer (_addr >>> 8), SpiOp.transfer (_addr &&& 0xFF)] st
    let (_data, st) := spi B (SpiOp.transfer 0) st
    (_data, spiAll B [SpiOp.resetSS] st)
  | Build.other =>
    let st := spiAll B [SpiOp.transferCS W5100_READ_FLAG false,
      SpiOp.transferCS (_addr >>> 8) false, SpiOp.transferCS (_addr &&& 0xFF) false] st
    spi B (SpiOp.transferCS 0 true) st

/-- `W5200Module::read(uint16_t _addr)`. -/
def W5200Module.read {σ : Type} (B : Bus σ) (bld : Build) (_addr : Nat) (st : Spi σ) :
    Nat × Spi σ :=
  let _addr := u16 _addr
  match bld with
  | Build.avr =>
    let st := spiAll B [SpiOp.setSS, SpiOp.transfer (_addr >>> 8),
      SpiOp.transfer (_addr &&& 0xFF), SpiOp.transfer W5200_READ_FLAG,
      SpiOp.transfer 0x01] st
    let (_data, st) := spi B (SpiOp.transfer 0) st
    (_data, spiAll B [SpiOp.resetSS] st)
  | Build.other =>
    let st := spiAll B [SpiOp.transferCS W5200_READ_FLAG false,
      SpiOp.transferCS (_addr >>> 8) false, SpiOp.transferCS (_addr &&& 0xFF) false,
      SpiOp.transferDefault 0x01 false] st
    spi B (SpiOp.transferCS 0 true) st

/-- The `for` loop of `W5100Module::read(uint16_t, uint8_t*, uint16_t)` with `n`
iterations to go, at address `_addr` and index `i`; `_buf[i]` receives the answer to the
fourth exchange of the frame. -/
def W5100Module.read_loop {σ : Type} (B : Bus σ) (bld : Build) :
    Nat → Nat → Nat → (Nat → Nat) → Spi σ → (Nat → Nat) × Spi σ
  | 0, _, _, _buf, st => (_buf, st)
  | n + 1, _addr, i, _buf, st =>
    match bld with
    | Build.avr =>
      let st := spiAll B [SpiOp.setSS, SpiOp.transfer W5100_READ_FLAG,
        SpiOp.transfer (_addr >>> 8), SpiOp.transfer (_addr &&& 0xFF)] st
      let (r, st) := spi B (SpiOp.transfer 0) st
      let st := spiAll B [SpiOp.resetSS] st
      W5100Module.read_loop B bld n (u16 (_addr + 1)) (i + 1) (Function.update _buf i r) st
    | Build.other =>
      let st := spiAll B [SpiOp.transferCS W5100_READ_FLAG false,
        SpiOp.transferCS (_addr >>> 8) false, SpiOp.transferCS (_addr &&& 0xFF) false] st
      let (r, st) := spi B (SpiOp.transferCS 0 true) st
      W5100Module.read_loop B bld n (u16 (_addr + 1)) (i + 1) (Function.update _buf i r) st

/-- `W5100Module::read(uint16_t _addr, uint8_t *_buf, uint16_t _len)`: the value returned
and the buffer. -/
def W5100Module.read_block {σ : Type} (B : Bus σ) (bld : Build) (_addr : Nat)
    (_buf : Nat → Nat) (_len : Nat) (st : Spi σ) : (Nat × (Nat → Nat)) × Spi σ :=
  let r := W5100Module.read_loop B bld _len (u16 _addr) 0 _buf st
  ((_len, r.1), r.2)

/-- A loop `for (i = ...; ...; i++) _buf[i] = SPI.transfer(...)` with `n` iterations to
go at index `i`, the call of iteration `i` being `op i`. -/
def transferLoop {σ : Type} (B : Bus σ) (op : Nat → SpiOp) :
    Nat → Nat → (Nat → Nat) → Spi σ → (Nat → Nat) × Spi σ
  | 0, _, _buf, st => (_buf, st)
  | n + 1, i, _buf, st =>
    let (r, st) := spi B (op i) st
    transferLoop B op n (i + 1) (Function.update _buf i r) st

/-- `W5200Module::read(uint16_t _addr, uint8_t *_buf, uint16_t _len)`: the value returned
and the buffer. `SPI_CS` is the pin constant of `utility/w5100.h`, a parameter: on the
non-AVR targets the loop calls `SPI.transfer(SPI_CS, mode)` with two arguments, which
sends `SPI_CS` as the byte. -/
def W5200Module.read_block {σ : Type} (B : Bus σ) (bld : Build) (SPI_CS : Nat)
    (_addr : Nat) (_buf : Nat → Nat) (_len : Nat) (st : Spi σ) :
    (Nat × (Nat → Nat)) × Spi σ :=
  let _addr := u16 _addr
  match bld with
  | Build.avr =>
    let st := spiAll B [SpiOp.setSS, SpiOp.transfer (_addr >>> 8),
      SpiOp.transfer (_addr &&& 0xFF), SpiOp.transfer W5200_READ_FLAG] st
    let r := transferLoop B (fun _ => SpiOp.transfer 0) _len 0 _buf st
    ((_len, r.1), spiAll B [SpiOp.resetSS] r.2)
  | Build.other =>
    let st := spiAll B [SpiOp.transferCS (_addr >>> 8) false,
      SpiOp.transferCS (_addr &&& 0xFF) false,
      SpiOp.transferCS (W5200_READ_FLAG ||| ((_len &&& 0x7F00) >>> 8)) false,
      SpiOp.transferCS (_len &&& 0xFF) false] st
    let r := transferLoop B
      (fun i => SpiOp.transferDefault SPI_CS (decide (i + 1 = _len))) _len 0 _buf st
    ((_len, r.1), r.2)

/-- The bytes that a list of bus calls puts on the wire, in order. -/
def busBytes : List SpiOp → List Nat
  | [] => []
  | SpiOp.transfer data :: ops => data :: busBytes ops
  | SpiOp.transferCS data _ :: ops => data :: busBytes ops
  | SpiOp.transferDefault data _ :: ops => data :: busBytes ops
  | _ :: ops => busBytes ops

/-- Whether a bus call releases chip select: `resetSS` on AVR, a transfer with `SPI_LAST`
on the other targets. -/
def SpiOp.releasesSS : SpiOp → Bool
  | SpiOp.resetSS => true
  | SpiOp.transferCS _ last => last
  | SpiOp.transferDefault _ last => last
  | _ => false

/-- The number of chip-select releases in a list of bus calls. -/
def ssReleases (ops : List SpiOp) : Nat := ops.countP SpiOp.releasesSS

/-- The answers of the device to a list of bus calls made in order from state `st`. -/
def spiAnswers {σ : Type} (B : Bus σ) : List SpiOp → Spi σ → List Nat
  | [], _ => []
  | op :: ops, st => (spi B op st).1 :: spiAnswers B ops (spi B op st).2

/-- The length that a Variant B chip decodes from flag byte and length byte. -/
def decodedLength (flag lenByte : Nat) : Nat := ((flag &&& 0x7F) <<< 8) ||| lenByte

/-! ## Command executor -/

/-- The loop `while (readSnCR(s)) ;` of `execCmdSn` after `n` reads of the command
register. The list holds the values that the next reads return. The result is the total
number of reads once a read has returned zero, or `none` when the loop is still polling
after the last read of the list. -/
def cmdLoop (n : Nat) : List Nat → Option Nat
  | [] => none
  | r :: rest => if r ≠ 0 then cmdLoop (n + 1) rest else some (n + 1)

/-- `WiznetModule::execCmdSn`; `readSnCR s` lists the values that successive reads of the
socket's command register return (the accessors `writeSnCR` and `readSnCR` are generated
by a macro of `utility/w5100.h`). The result is the list of register accesses made, or
`none` when the function has not returned after the last read of the list. -/
def execCmdSn (readSnCR : Nat → List Nat) (s _cmd : Nat) : Option (List Access) :=
  match cmdLoop 0 (readSnCR s) with
  | some n => some (Access.writeSnCR s _cmd :: List.replicate n (Access.readSnCR s))
  | none => none

/-! ## Views of the call logs used by the statements -/

/-- The block accesses of a call log, in order: start address and number of bytes. -/
def blockAccesses : List Access → List (Nat × Nat)
  | [] => []
  | Access.write addr data :: rest => (addr, data.length) :: blockAccesses rest
  | Access.read addr len :: rest => (addr, len) :: blockAccesses rest
  | _ :: rest => blockAccesses rest

/-- The bus calls of one Variant A write frame, `flag, addr_hi, addr_lo, data`, as
`W5100Module::write` makes them for the 16-bit address `addr`. -/
def w5100WriteFrame (bld : Build) (addr data : Nat) : List SpiOp :=
  match bld with
  | Build.avr =>
    [SpiOp.setSS, SpiOp.transfer 0xF0, SpiOp.transfer (addr >>> 8),
      SpiOp.transfer (addr &&& 0xFF), SpiOp.transfer data, SpiOp.resetSS]
  | Build.other =>
    [SpiOp.transferCS 0xF0 false, SpiOp.transferCS (addr >>> 8) false,
      SpiOp.transferCS (addr &&& 0xFF) false, SpiOp.transferCS data true]

/-- The bus calls of one Variant A read frame, `flag, addr_hi, addr_lo, 0`, as
`W5100Module::read` makes them for the 16-bit address `addr`. -/
def w5100ReadFrame (bld : Build) (addr : Nat) : List SpiOp :=
  match bld with
  | Build.avr =>
    [SpiOp.setSS, SpiOp.transfer 0x0F, SpiOp.transfer (addr >>> 8),
      SpiOp.transfer (addr &&& 0xFF), SpiOp.transfer 0, SpiOp.resetSS]
  | Build.other =>
    [SpiOp.transferCS 0x0F false, SpiOp.transferCS (addr >>> 8) false,
      SpiOp.transferCS (addr &&& 0xFF) false, SpiOp.transferCS 0 true]

/-- The position, within a Variant A read frame, of the call that makes the fourth
exchange. -/
def w5100ReadSlot (bld : Build) : Nat :=
  match bld with
  | Build.avr => 4
  | Build.other => 3

/-- The four header bytes of a Variant B block access as the specification gives them:
address high and low byte, the direction flag with the high seven bits of the length, and
the low length byte. -/
def w5200Header (flag a len : Nat) : List Nat :=
  [u16 a >>> 8, u16 a &&& 0xFF, flag ||| ((len &&& 0x7F00) >>> 8), len &&& 0xFF]

/-- The three bus acquisitions that the specification ascribes to
`exploratory_modewrite` for the probe byte `m`: the mode register write frame, the mode
register read frame, and the dummy exchanges. -/
def probeAcquisitions (bld : Build) (m : Nat) : List SpiOp × List SpiOp × List SpiOp :=
  match bld with
  | Build.avr =>
    ([SpiOp.beginTransaction, SpiOp.setSS, SpiOp.transfer 0xF0, SpiOp.transfer 0x00,
        SpiOp.transfer 0x00, SpiOp.transfer m, SpiOp.resetSS, SpiOp.endTransaction],
      [SpiOp.beginTransaction, SpiOp.setSS, SpiOp.transfer 0x0F, SpiOp.transfer 0x00,
        SpiOp.transfer 0x00, SpiOp.transfer 0x00, SpiOp.resetSS, SpiOp.endTransaction],
      [SpiOp.beginTransaction, SpiOp.setSS] ++ List.replicate (m - 4) (SpiOp.transfer 0x00)
        ++ [SpiOp.resetSS, SpiOp.endTransaction])
  | Build.other =>
    ([SpiOp.beginTransaction, SpiOp.transferCS 0xF0 false, SpiOp.transferCS 0x00 false,
        SpiOp.transferCS 0x00 false, SpiOp.transferCS m true, SpiOp.endTransaction],
      [SpiOp.beginTransaction, SpiOp.transferCS 0x0F false, SpiOp.transferCS 0x00 false,
        SpiOp.transferCS 0x00 false, SpiOp.transferCS 0x00 true, SpiOp.endTransaction],
      [SpiOp.beginTransaction] ++ List.replicate (m - 4) (SpiOp.transferCS 0x00 true)
        ++ [SpiOp.endTransaction])

/-- The position, among the calls of `exploratory_modewrite`, of the fourth exchange of
the read frame. -/
def probeReadSlot (bld : Build) : Nat :=
  match bld with
  | Build.avr => 13
  | Build.other => 10

/-! # Theorems -/

/-! ## Arithmetic of the window mask -/

theorem u16_u16 (n : Nat) : u16 (u16 n) = u16 n := by
  unfold u16; omega

theorem u16_add_u16_left (a n : Nat) : u16 (u16 a + n) = u16 (a + n) := by
  unfold u16; omega

theorem u16_add_u16_left₂ (a n m : Nat) : u16 (u16 a + n + m) = u16 (a + n + m) := by
  unfold u16; omega

theorem u16_of_lt {n : Nat} (h : n < 65536) : u16 n = n := by
  unfold u16; omega

theorem two_pow_le_of_le_15 {k : Nat} (hk : k ≤ 15) : 2 ^ k ≤ 32768 := by
  have h : 2 ^ k ≤ 2 ^ 15 := Nat.pow_le_pow_right (by decide) hk
  simpa using h

/-- Masking a 16-bit pointer with `W - 1`, `W = 2^k` a `uint16_t`, reduces it modulo `W`. -/
theorem mask_eq_mod {k : Nat} (hk : k ≤ 15) (p : Nat) :
    u16 p &&& (2 ^ k - 1) = p % 2 ^ k := by
  rw [Nat.and_pow_two_sub_one_eq_mod]
  unfold u16
  have hd : 2 ^ k ∣ 65536 := by
    have h : 2 ^ k ∣ 2 ^ 16 := Nat.pow_dvd_pow 2 (by omega)
    simpa using h
  exact Nat.mod_mod_of_dvd p hd

theorem mod_add_of_lt {x W i : Nat} (h : x % W + i < W) : (x + i) % W = x % W + i := by
  rw [← Nat.mod_add_mod, Nat.mod_eq_of_lt h]

theorem mod_add_of_wrap {x W i : Nat} (h1 : W ≤ x % W + i) (h2 : x % W + i < 2 * W) :
    (x + i) % W = x % W + i - W := by
  rw [← Nat.mod_add_mod, Nat.mod_eq_sub_mod h1, Nat.mod_eq_of_lt (by omega)]

theorem map_range_split {α : Type} (f : Nat → α) {n m : Nat} (h : n ≤ m) :
    (List.range m).map f
      = (List.range n).map f ++ (List.range (m - n)).map (fun j => f (n + j)) := by
  have hm : m = n + (m - n) := by omega
  conv_lhs => rw [hm, List.range_add]
  simp [List.map_append, List.map_map, Function.comp_def]

/-- The position inside a window of size `W` of byte `i` of a transfer that starts at
pointer `x` is injective in `i` as long as at most `W` bytes are moved. -/
theorem wrap_injOn {x W i j : Nat} (hi : i < W) (hj : j < W)
    (h : (x + i) % W = (x + j) % W) : i = j := by
  have h1 : i ≡ j [MOD W] := Nat.ModEq.add_left_cancel' x h
  have h2 : i % W = j % W := h1
  rwa [Nat.mod_eq_of_lt hi, Nat.mod_eq_of_lt hj] at h2

/-! ## Logs and byte stores -/

theorem txStores_append (l₁ l₂ : List Access) :
    txStores (l₁ ++ l₂) = txStores l₁ ++ txStores l₂ := by
  induction l₁ with
  | nil => simp [txStores]
  | cons a rest ih => cases a <;> simp [txStores, ih]

theorem txStores_write (addr : Nat) (buf : Nat → Nat) (n : Nat) :
    txStores [Access.write addr ((List.range n).map buf)]
      = (List.range n).map (fun i => (u16 (addr + i), buf i)) := by
  simp only [txStores, List.length_map, List.length_range, List.append_nil]
  apply List.map_congr_left
  intro i hi
  have hi' : i < n := List.mem_range.mp hi
  simp [List.getD_eq_getElem?_getD, hi']

theorem txStores_readSnTX_WR (s : Nat) : txStores [Access.readSnTX_WR s] = [] := rfl

theorem txStores_writeSnTX_WR (s v : Nat) : txStores [Access.writeSnTX_WR s v] = [] := rfl

/-- The block writes of `send_data_processing_offset`, as one list of byte stores with
wrapped 16-bit addresses. -/
theorem send_stores_u16 (L : Layout) (b : Build) (c : Chip) (s data_offset : Nat)
    (data : Nat → Nat) (len k : Nat) (hk : k ≤ 15) (hS : L.SSIZE = 2 ^ k)
    (hM : L.SMASK = L.SSIZE - 1) (hlen : len ≤ L.SSIZE) :
    txStores (send_data_processing_offset L b c s data_offset data len).log
      = txStores c.log ++ (List.range len).map (fun i =>
          (u16 (L.get_sock_tx_addr s + ((readSnTX_WR c s).1 + data_offset + i) % L.SSIZE),
            data i)) := by
  have hW := two_pow_le_of_le_15 hk
  have hWpos : 0 < 2 ^ k := Nat.two_pow_pos k
  simp only [send_data_processing_offset, readSnTX_WR, writeSnTX_WR, write]
  rw [hM, hS, mask_eq_mod hk]
  set x := u16 (c.SnTX_WR s) + data_offset with hx
  set o := x % 2 ^ k with ho
  have ho_lt : o < 2 ^ k := Nat.mod_lt _ hWpos
  rw [hS] at hlen
  have hprom : addPromoted b o len = o + len := by
    cases b
    · simp only [addPromoted]; exact u16_of_lt (by omega)
    · rfl
  rw [hprom]
  split
  · rename_i hgt
    have hsize : sub16 (2 ^ k) o = 2 ^ k - o := by
      unfold sub16 u16; omega
    have hrest : sub16 len (2 ^ k - o) = len - (2 ^ k - o) := by
      unfold sub16 u16; omega
    simp only [hsize, hrest, txStores_append, txStores_write, List.append_assoc,
      txStores_readSnTX_WR, txStores_writeSnTX_WR, List.append_nil, List.nil_append, u16_u16, u16_add_u16_left]
    rw [map_range_split _ (show 2 ^ k - o ≤ len by omega)]
    congr 2
    · apply List.map_congr_left
      intro i hi
      have hi' : i < 2 ^ k - o := List.mem_range.mp hi
      rw [mod_add_of_lt (by omega)]
      congr 2; omega
    · apply List.map_congr_left
      intro j hj
      have hj' : j < len - (2 ^ k - o) := List.mem_range.mp hj
      rw [mod_add_of_wrap (by omega) (by omega)]
      congr 2; omega
  · rename_i hle
    simp only [txStores_append, txStores_write, List.append_assoc,
      txStores_readSnTX_WR, txStores_writeSnTX_WR, List.append_nil, List.nil_append, u16_u16, u16_add_u16_left]
    congr 1
    apply List.map_congr_left
    intro i hi
    have hi' : i < len := List.mem_range.mp hi
    rw [mod_add_of_lt (by omega)]
    congr 2; omega

theorem blit_map_range (buf : Nat → Nat) (off : Nat) (f : Nat → Nat) (n i : Nat) :
    blit buf off ((List.range n).map f) i
      = if off ≤ i ∧ i < off + n then f (i - off) else buf i := by
  unfold blit
  simp only [List.length_map, List.length_range]
  split
  · rename_i h
    have h' : i - off < n := by omega
    simp [List.getD_eq_getElem?_getD, h']
  · rfl

theorem blit_nil (mem : Nat → Nat) (addr : Nat) : blit mem addr [] = mem := by
  funext a
  simp [blit]

/-- Without address wrap-around, storing a block is copying it into the memory. -/
theorem storeBytes_eq_blit (bytes : List Nat) (mem : Nat → Nat) (addr : Nat)
    (h : addr + bytes.length ≤ 65536) : storeBytes mem addr bytes = blit mem addr bytes := by
  induction bytes generalizing mem addr with
  | nil => simp [storeBytes, blit_nil]
  | cons b bs ih =>
    simp only [List.length_cons] at h
    rw [storeBytes, ih _ _ (by omega), u16_of_lt (by omega)]
    funext a
    simp only [blit, List.length_cons]
    by_cases h1 : addr + 1 ≤ a ∧ a < addr + 1 + bs.length
    · rw [if_pos h1, if_pos (by omega)]
      obtain ⟨d, hd⟩ : ∃ d, a - addr = d + 1 := ⟨a - addr - 1, by omega⟩
      rw [hd, List.getD_cons_succ]
      congr 1; omega
    · rw [if_neg h1]
      by_cases h2 : a = addr
      · subst h2
        simp
      · rw [Function.update_noteq h2, if_neg (by omega)]

/-- The chip memory after `send_data_processing_offset`: data byte `i` sits at its
wrapped address, and everything outside the TX window of the socket is as before. -/
theorem send_mem (L : Layout) (b : Build) (c : Chip) (s data_offset : Nat)
    (data : Nat → Nat) (len k : Nat) (hk : k ≤ 15) (hS : L.SSIZE = 2 ^ k)
    (hM : L.SMASK = L.SSIZE - 1) (hbase : L.get_sock_tx_addr s + L.SSIZE ≤ 65536)
    (hlen : len ≤ L.SSIZE) :
    (∀ i, i < len →
        (send_data_processing_offset L b c s data_offset data len).mem
            (L.get_sock_tx_addr s + ((readSnTX_WR c s).1 + data_offset + i) % L.SSIZE)
          = data i)
      ∧ ∀ a, (a < L.get_sock_tx_addr s ∨ L.get_sock_tx_addr s + L.SSIZE ≤ a) →
          (send_data_processing_offset L b c s data_offset data len).mem a = c.mem a := by
  have hW := two_pow_le_of_le_15 hk
  have hWpos : 0 < 2 ^ k := Nat.two_pow_pos k
  simp only [send_data_processing_offset, readSnTX_WR, writeSnTX_WR, write]
  rw [hM, hS, mask_eq_mod hk]
  set x := u16 (c.SnTX_WR s) + data_offset with hx
  set o := x % 2 ^ k with ho
  have ho_lt : o < 2 ^ k := Nat.mod_lt _ hWpos
  rw [hS] at hlen hbase
  have hprom : addPromoted b o len = o + len := by
    cases b
    · simp only [addPromoted]; exact u16_of_lt (by omega)
    · rfl
  have hdst : u16 (u16 (o + L.get_sock_tx_addr s)) = L.get_sock_tx_addr s + o := by
    rw [u16_u16, u16_of_lt (by omega)]; omega
  have hb : u16 (L.get_sock_tx_addr s) = L.get_sock_tx_addr s := u16_of_lt (by omega)
  rw [hprom, hdst, hb]
  split
  · rename_i hgt
    have hsize : sub16 (2 ^ k) o = 2 ^ k - o := by
      unfold sub16 u16; omega
    have hrest : sub16 len (2 ^ k - o) = len - (2 ^ k - o) := by
      unfold sub16 u16; omega
    simp only [hsize, hrest]
    rw [storeBytes_eq_blit _ _ _ (by simp; omega), storeBytes_eq_blit _ _ _ (by simp; omega)]
    simp only [blit_map_range]
    constructor
    · intro i hi
      by_cases hw : i < 2 ^ k - o
      · rw [mod_add_of_lt (by omega), if_neg (by omega), if_pos (by omega)]
        congr 1; omega
      · rw [mod_add_of_wrap (by omega) (by omega), if_pos (by omega)]
        congr 1; omega
    · intro a ha
      rw [if_neg (by omega), if_neg (by omega)]
  · rename_i hle
    rw [storeBytes_eq_blit _ _ _ (by simp; omega)]
    simp only [blit_map_range]
    constructor
    · intro i hi
      rw [mod_add_of_lt (by omega), if_pos (by omega)]
      congr 1; omega
    · intro a ha
      rw [if_neg (by omega)]

/-! ## Transmit: placement and pointer write-back -/

/-- C1: with `SSIZE = 2^k` a `uint16_t`, `SMASK = SSIZE - 1`, the TX window of socket `s`
inside the 16-bit address space and `len ≤ SSIZE`, the block writes of
`send_data_processing_offset` store data byte `i`, for `i = 0 .. len-1` in this order and
nothing else, at chip address `get_sock_tx_addr(s) + ((p + data_offset + i) mod SSIZE)`,
`p` the value read from `Sn_TX_WR`; the `len` addresses are pairwise distinct and all lie
in the TX window of socket `s`; afterwards the chip memory holds data byte `i` at that
address and is unchanged outside the window. -/
theorem send_data_processing_offset_placement (L : Layout) (b : Build) (c : Chip)
    (s data_offset : Nat) (data : Nat → Nat) (len k : Nat) (hk : k ≤ 15)
    (hS : L.SSIZE = 2 ^ k) (hM : L.SMASK = L.SSIZE - 1)
    (hbase : L.get_sock_tx_addr s + L.SSIZE ≤ 65536) (hlen : len ≤ L.SSIZE) :
    txStores (send_data_processing_offset L b c s data_offset data len).log
        = txStores c.log ++ (List.range len).map (fun i =>
            (wrappedAddr (L.get_sock_tx_addr s) L.SSIZE
              ((readSnTX_WR c s).1 + data_offset) i, data i))
      ∧ ((List.range len).map (wrappedAddr (L.get_sock_tx_addr s) L.SSIZE
            ((readSnTX_WR c s).1 + data_offset))).Nodup
      ∧ (∀ i, i < len →
          L.get_sock_tx_addr s
              ≤ wrappedAddr (L.get_sock_tx_addr s) L.SSIZE
                  ((readSnTX_WR c s).1 + data_offset) i
            ∧ wrappedAddr (L.get_sock_tx_addr s) L.SSIZE
                  ((readSnTX_WR c s).1 + data_offset) i
              < L.get_sock_tx_addr s + L.SSIZE)
      ∧ (∀ i, i < len →
          (send_data_processing_offset L b c s data_offset data len).mem
              (wrappedAddr (L.get_sock_tx_addr s) L.SSIZE
                ((readSnTX_WR c s).1 + data_offset) i)
            = data i)
      ∧ ∀ a, (a < L.get_sock_tx_addr s ∨ L.get_sock_tx_addr s + L.SSIZE ≤ a) →
          (send_data_processing_offset L b c s data_offset data len).mem a = c.mem a := by
  have hWpos : 0 < L.SSIZE := by rw [hS]; exact Nat.two_pow_pos k
  have hmem := send_mem L b c s data_offset data len k hk hS hM hbase hlen
  refine ⟨?_, ?_, ?_, hmem.1, hmem.2⟩
  · rw [send_stores_u16 L b c s data_offset data len k hk hS hM hlen]
    congr 1
    apply List.map_congr_left
    intro i _
    have hlt : ((readSnTX_WR c s).1 + data_offset + i) % L.SSIZE < L.SSIZE :=
      Nat.mod_lt _ hWpos
    rw [u16_of_lt (by omega)]
    rfl
  · apply List.Nodup.map_on _ (List.nodup_range len)
    intro i hi j hj hij
    have hi' : i < L.SSIZE := Nat.lt_of_lt_of_le (List.mem_range.mp hi) hlen
    have hj' : j < L.SSIZE := Nat.lt_of_lt_of_le (List.mem_range.mp hj) hlen
    exact wrap_injOn hi' hj' (Nat.add_left_cancel hij)
  · intro i _
    have hlt : ((readSnTX_WR c s).1 + data_offset + i) % L.SSIZE < L.SSIZE :=
      Nat.mod_lt _ hWpos
    unfold wrappedAddr
    omega

/-- C1 at a concrete input: socket 1 of the 2048-byte layout, pointer 2046, offset 1 and
five bytes, which wrap around the end of the window. -/
theorem send_data_processing_offset_placement_witness :
    (11 ≤ 15 ∧ demoLayout.SSIZE = 2 ^ 11 ∧ demoLayout.SMASK = demoLayout.SSIZE - 1
        ∧ demoLayout.get_sock_tx_addr 1 + demoLayout.SSIZE ≤ 65536 ∧ 5 ≤ demoLayout.SSIZE)
      ∧ (txStores (send_data_processing_offset demoLayout Build.avr (demoChip 2046 0) 1 1
            (fun i => 100 + i) 5).log
          = txStores (demoChip 2046 0).log ++ (List.range 5).map (fun i =>
              (wrappedAddr (demoLayout.get_sock_tx_addr 1) demoLayout.SSIZE
                ((readSnTX_WR (demoChip 2046 0) 1).1 + 1) i, (fun i => 100 + i) i))
        ∧ ((List.range 5).map (wrappedAddr (demoLayout.get_sock_tx_addr 1)
              demoLayout.SSIZE ((readSnTX_WR (demoChip 2046 0) 1).1 + 1))).Nodup
        ∧ (∀ i, i < 5 →
            demoLayout.get_sock_tx_addr 1
                ≤ wrappedAddr (demoLayout.get_sock_tx_addr 1) demoLayout.SSIZE
                    ((readSnTX_WR (demoChip 2046 0) 1).1 + 1) i
              ∧ wrappedAddr (demoLayout.get_sock_tx_addr 1) demoLayout.SSIZE
                    ((readSnTX_WR (demoChip 2046 0) 1).1 + 1) i
                < demoLayout.get_sock_tx_addr 1 + demoLayout.SSIZE)
        ∧ (∀ i, i < 5 →
            (send_data_processing_offset demoLayout Build.avr (demoChip 2046 0) 1 1
                (fun i => 100 + i) 5).mem
                (wrappedAddr (demoLayout.get_sock_tx_addr 1) demoLayout.SSIZE
                  ((readSnTX_WR (demoChip 2046 0) 1).1 + 1) i)
              = (fun i => 100 + i) i)
        ∧ ∀ a, (a < demoLayout.get_sock_tx_addr 1
              ∨ demoLayout.get_sock_tx_addr 1 + demoLayout.SSIZE ≤ a) →
            (send_data_processing_offset demoLayout Build.avr (demoChip 2046 0) 1 1
                (fun i => 100 + i) 5).mem a = (demoChip 2046 0).mem a) :=
  ⟨⟨by decide, by decide, by decide, by decide, by decide⟩,
    send_data_processing_offset_placement demoLayout Build.avr (demoChip 2046 0) 1 1
      (fun i => 100 + i) 5 11 (by decide) (by decide) (by decide) (by decide) (by decide)⟩

theorem pointerWrites_append (l₁ l₂ : List Access) :
    pointerWrites (l₁ ++ l₂) = pointerWrites l₁ ++ pointerWrites l₂ := by
  simp [pointerWrites]

/-- The pointer-register writes that `send_data_processing_offset` adds to the log. -/
theorem send_pointerWrites (L : Layout) (b : Build) (c : Chip) (s data_offset : Nat)
    (data : Nat → Nat) (len : Nat) :
    pointerWrites (send_data_processing_offset L b c s data_offset data len).log
      = pointerWrites c.log
          ++ [Access.writeSnTX_WR s (u16 ((readSnTX_WR c s).1 + data_offset + len))] := by
  simp only [send_data_processing_offset, readSnTX_WR, writeSnTX_WR, write]
  split <;>
    simp [pointerWrites, Access.isPointerWrite, List.filter_append, u16_u16,
      u16_add_u16_left, u16_add_u16_left₂]

/-- The register state after `send_data_processing_offset`. -/
theorem send_SnTX_WR (L : Layout) (b : Build) (c : Chip) (s data_offset : Nat)
    (data : Nat → Nat) (len : Nat) :
    (send_data_processing_offset L b c s data_offset data len).SnTX_WR
      = Function.update c.SnTX_WR s (u16 ((readSnTX_WR c s).1 + data_offset + len)) := by
  simp only [send_data_processing_offset, readSnTX_WR, writeSnTX_WR, write]
  split <;> simp [u16_u16, u16_add_u16_left, u16_add_u16_left₂]

/-- C2, the claim refuted: from pointer 100, sending 3 bytes with `data_offset = 5`
persists 108, not 100 + 3; with `data_offset = 0` the same call persists 103, so the
persisted pointer does depend on `data_offset`. -/
theorem send_pointer_counterexample :
    (send_data_processing_offset demoLayout Build.avr (demoChip 100 0) 0 5
        (fun _ => 0) 3).SnTX_WR 0 = 108
      ∧ (send_data_processing_offset demoLayout Build.avr (demoChip 100 0) 0 0
        (fun _ => 0) 3).SnTX_WR 0 = 103
      ∧ (send_data_processing_offset demoLayout Build.avr (demoChip 100 0) 0 5
          (fun _ => 0) 3).SnTX_WR 0
        ≠ u16 ((readSnTX_WR (demoChip 100 0) 0).1 + 3) := by
  simp only [send_SnTX_WR]
  decide

/-- C2 as amended: the value `send_data_processing_offset` persists in `Sn_TX_WR` of
socket `s` (its only pointer write; the other sockets keep theirs) is the value read plus
`data_offset` plus `len`, modulo 2^16; with `data_offset = 0`, as in
`send_data_processing`, the pointer advances by exactly `len`. -/
theorem send_pointer_writeback (L : Layout) (b : Build) (c : Chip) (s data_offset : Nat)
    (data : Nat → Nat) (len : Nat) :
    (send_data_processing_offset L b c s data_offset data len).SnTX_WR
        = Function.update c.SnTX_WR s (u16 ((readSnTX_WR c s).1 + data_offset + len))
      ∧ pointerWrites (send_data_processing_offset L b c s data_offset data len).log
          = pointerWrites c.log
              ++ [Access.writeSnTX_WR s (u16 ((readSnTX_WR c s).1 + data_offset + len))]
      ∧ (send_data_processing L b c s data len).SnTX_WR
          = Function.update c.SnTX_WR s (u16 ((readSnTX_WR c s).1 + len)) := by
  refine ⟨send_SnTX_WR L b c s data_offset data len,
    send_pointerWrites L b c s data_offset data len, ?_⟩
  unfold send_data_processing
  rw [send_SnTX_WR]
  simp

/-! ## Receive: bytes returned and pointer advance -/

/-- The host buffer after `read_data`: index `i < len` holds the chip byte at the wrapped
16-bit address, the rest of the buffer is untouched. -/
theorem read_data_buffer (L : Layout) (b : Build) (c : Chip) (s src : Nat) (dst : Nat → Nat)
    (len k : Nat) (hk : k ≤ 15) (hR : L.RSIZE = 2 ^ k) (hM : L.RMASK = L.RSIZE - 1)
    (hlen : len ≤ L.RSIZE) (i : Nat) :
    (read_data L b c s src dst len).1 i
      = if i < len then c.mem (u16 (L.get_sock_rx_addr s + (src + i) % L.RSIZE))
        else dst i := by
  have hW := two_pow_le_of_le_15 hk
  have hWpos : 0 < 2 ^ k := Nat.two_pow_pos k
  simp only [read_data, read]
  rw [hM, hR, Nat.and_pow_two_sub_one_eq_mod]
  set o := src % 2 ^ k with ho
  have ho_lt : o < 2 ^ k := Nat.mod_lt _ hWpos
  rw [hR] at hlen
  have hprom : addPromoted b o len = o + len := by
    cases b
    · simp only [addPromoted]; exact u16_of_lt (by omega)
    · rfl
  rw [hprom]
  split
  · rename_i hgt
    have hsize : sub16 (2 ^ k) o = 2 ^ k - o := by
      unfold sub16 u16; omega
    have hrest : sub16 len (2 ^ k - o) = len - (2 ^ k - o) := by
      unfold sub16 u16; omega
    simp only [hsize, hrest, blit_map_range, u16_u16, u16_add_u16_left]
    by_cases h2 : 2 ^ k - o ≤ i ∧ i < 2 ^ k - o + (len - (2 ^ k - o))
    · rw [if_pos h2, if_pos (by omega), mod_add_of_wrap (by omega) (by omega)]
      congr 2; omega
    · rw [if_neg h2]
      by_cases h1 : 0 ≤ i ∧ i < 0 + (2 ^ k - o)
      · rw [if_pos h1, if_pos (by omega), mod_add_of_lt (by omega)]
        congr 2; omega
      · rw [if_neg h1, if_neg (by omega)]
  · rename_i hle
    simp only [blit_map_range, u16_u16, u16_add_u16_left]
    by_cases h1 : 0 ≤ i ∧ i < 0 + len
    · rw [if_pos h1, if_pos (by omega), mod_add_of_lt (by omega)]
      congr 2; omega
    · rw [if_neg h1, if_neg (by omega)]

/-- `read_data` leaves the chip memory and both pointer registers as they were and logs
no pointer write. -/
theorem read_data_chip (L : Layout) (b : Build) (c : Chip) (s src : Nat) (dst : Nat → Nat)
    (len : Nat) :
    (read_data L b c s src dst len).2.mem = c.mem
      ∧ (read_data L b c s src dst len).2.SnRX_RD = c.SnRX_RD
      ∧ (read_data L b c s src dst len).2.SnTX_WR = c.SnTX_WR
      ∧ pointerWrites (read_data L b c s src dst len).2.log = pointerWrites c.log := by
  simp only [read_data, read]
  split <;> simp [pointerWrites, Access.isPointerWrite, List.filter_append]

/-- The bytes `read_data` returns depend on the chip only through its memory. -/
theorem read_data_fst_congr (L : Layout) (b : Build) (c c' : Chip) (s src : Nat)
    (dst : Nat → Nat) (len : Nat) (hmem : c.mem = c'.mem) :
    (read_data L b c s src dst len).1 = (read_data L b c' s src dst len).1 := by
  simp only [read_data, read, hmem]
  split <;> rfl

theorem recv_fst (L : Layout) (b : Build) (c : Chip) (s : Nat) (data : Nat → Nat)
    (len peek : Nat) :
    (recv_data_processing L b c s data len peek).1
      = (read_data L b c s (u16 (c.SnRX_RD s)) data len).1 := by
  simp only [recv_data_processing, readSnRX_RD]
  split <;> exact read_data_fst_congr L b _ c s _ data len rfl

/-- C3: with `RSIZE = 2^k` a `uint16_t`, `RMASK = RSIZE - 1`, the RX window of socket `s`
inside the 16-bit address space and `len ≤ RSIZE`, `recv_data_processing` (peeking or
not) leaves in `data[i]`, for every `i < len`, the chip byte at address
`get_sock_rx_addr(s) + ((p + i) mod RSIZE)`, `p` the value read from `Sn_RX_RD`, and
leaves `data[i]` untouched for `i ≥ len`; `read_data` does the same for any start
pointer `src`. -/
theorem recv_data_processing_bytes (L : Layout) (b : Build) (c : Chip) (s : Nat)
    (data : Nat → Nat) (len peek k src : Nat) (hk : k ≤ 15) (hR : L.RSIZE = 2 ^ k)
    (hM : L.RMASK = L.RSIZE - 1) (hbase : L.get_sock_rx_addr s + L.RSIZE ≤ 65536)
    (hlen : len ≤ L.RSIZE) :
    (recv_data_processing L b c s data len peek).1
        = (fun i => if i < len
            then c.mem (wrappedAddr (L.get_sock_rx_addr s) L.RSIZE (readSnRX_RD c s).1 i)
            else data i)
      ∧ (read_data L b c s src data len).1
        = (fun i => if i < len
            then c.mem (wrappedAddr (L.get_sock_rx_addr s) L.RSIZE src i)
            else data i) := by
  have hWpos : 0 < L.RSIZE := by rw [hR]; exact Nat.two_pow_pos k
  have key : ∀ x i, u16 (L.get_sock_rx_addr s + (x + i) % L.RSIZE)
      = L.get_sock_rx_addr s + (x + i) % L.RSIZE := by
    intro x i
    have hlt : (x + i) % L.RSIZE < L.RSIZE := Nat.mod_lt _ hWpos
    exact u16_of_lt (by omega)
  constructor
  · funext i
    rw [recv_fst, read_data_buffer L b c s _ data len k hk hR hM hlen i, key]
    rfl
  · funext i
    rw [read_data_buffer L b c s _ data len k hk hR hM hlen i, key]
    rfl

/-- C3 at a concrete input: socket 0 of the 2048-byte layout, read pointer 65535 and
four bytes, which wrap around the end of the window. -/
theorem recv_data_processing_bytes_witness :
    (11 ≤ 15 ∧ demoLayout.RSIZE = 2 ^ 11 ∧ demoLayout.RMASK = demoLayout.RSIZE - 1
        ∧ demoLayout.get_sock_rx_addr 0 + demoLayout.RSIZE ≤ 65536 ∧ 4 ≤ demoLayout.RSIZE)
      ∧ ((recv_data_processing demoLayout Build.other (demoChip 0 65535) 0 (fun _ => 7)
            4 1).1
          = (fun i => if i < 4
              then (demoChip 0 65535).mem (wrappedAddr (demoLayout.get_sock_rx_addr 0)
                demoLayout.RSIZE (readSnRX_RD (demoChip 0 65535) 0).1 i)
              else (fun _ => 7) i)
        ∧ (read_data demoLayout Build.other (demoChip 0 65535) 0 2047 (fun _ => 7) 4).1
          = (fun i => if i < 4
              then (demoChip 0 65535).mem (wrappedAddr (demoLayout.get_sock_rx_addr 0)
                demoLayout.RSIZE 2047 i)
              else (fun _ => 7) i)) :=
  ⟨⟨by decide, by decide, by decide, by decide, by decide⟩,
    recv_data_processing_bytes demoLayout Build.other (demoChip 0 65535) 0 (fun _ => 7)
      4 1 11 2047 (by decide) (by decide) (by decide) (by decide) (by decide)⟩

/-- The chip after a peeking `recv_data_processing`: only the log has grown, and by no
pointer write. -/
theorem recv_peek_chip (L : Layout) (b : Build) (c : Chip) (s : Nat) (data : Nat → Nat)
    (len peek : Nat) :
    (recv_data_processing L b c s data len (peek + 1)).2.mem = c.mem
      ∧ (recv_data_processing L b c s data len (peek + 1)).2.SnRX_RD = c.SnRX_RD
      ∧ pointerWrites (recv_data_processing L b c s data len (peek + 1)).2.log
          = pointerWrites c.log := by
  simp only [recv_data_processing, readSnRX_RD, Nat.succ_ne_zero, if_false]
  obtain ⟨h1, h2, _, h4⟩ := read_data_chip L b
    { c with log := c.log ++ [Access.readSnRX_RD s] } s (u16 (c.SnRX_RD s)) data len
  refine ⟨h1, h2, ?_⟩
  rw [h4]
  simp [pointerWrites, Access.isPointerWrite, List.filter_append]

/-- Any number of peeking calls leaves memory and read pointers as they were. -/
theorem recv_peek_iterate (L : Layout) (b : Build) (s : Nat) (data : Nat → Nat)
    (len peek n : Nat) (c : Chip) :
    ((fun c' => (recv_data_processing L b c' s data len (peek + 1)).2)^[n] c).mem = c.mem
      ∧ ((fun c' => (recv_data_processing L b c' s data len (peek + 1)).2)^[n] c).SnRX_RD
          = c.SnRX_RD
      ∧ pointerWrites
          ((fun c' => (recv_data_processing L b c' s data len (peek + 1)).2)^[n] c).log
          = pointerWrites c.log := by
  induction n generalizing c with
  | zero => simp
  | succ n ih =>
    rw [Function.iterate_succ_apply]
    obtain ⟨h1, h2, h3⟩ := ih (recv_data_processing L b c s data len (peek + 1)).2
    obtain ⟨g1, g2, g3⟩ := recv_peek_chip L b c s data len peek
    exact ⟨h1.trans g1, h2.trans g2, h3.trans g3⟩

/-- C4: a peeking call of `recv_data_processing` (`peek ≠ 0`, written `peek + 1`) logs no
pointer write and leaves every `Sn_RX_RD` and the chip memory unchanged, so after any
number `n` of identical peeking calls the pointers are still the original ones and a
further peek returns the same bytes as the first; a non-peeking call (`peek = 0`) makes
exactly one pointer write, `Sn_RX_RD := (old Sn_RX_RD + len) mod 2^16` for socket `s`. -/
theorem recv_data_processing_peek (L : Layout) (b : Build) (c : Chip) (s : Nat)
    (data : Nat → Nat) (len peek n : Nat) :
    (pointerWrites (recv_data_processing L b c s data len (peek + 1)).2.log
          = pointerWrites c.log
        ∧ (recv_data_processing L b c s data len (peek + 1)).2.SnRX_RD = c.SnRX_RD
        ∧ ((fun c' => (recv_data_processing L b c' s data len (peek + 1)).2)^[n] c).SnRX_RD
            = c.SnRX_RD
        ∧ (recv_data_processing L b
              ((fun c' => (recv_data_processing L b c' s data len (peek + 1)).2)^[n] c)
              s data len (peek + 1)).1
            = (recv_data_processing L b c s data len (peek + 1)).1)
      ∧ (pointerWrites (recv_data_processing L b c s data len 0).2.log
          = pointerWrites c.log
              ++ [Access.writeSnRX_RD s (u16 ((readSnRX_RD c s).1 + len))]
        ∧ (recv_data_processing L b c s data len 0).2.SnRX_RD
            = Function.update c.SnRX_RD s (u16 ((readSnRX_RD c s).1 + len))) := by
  obtain ⟨g1, g2, g3⟩ := recv_peek_chip L b c s data len peek
  obtain ⟨h1, h2, _⟩ := recv_peek_iterate L b s data len peek n c
  refine ⟨⟨g3, g2, h2, ?_⟩, ?_, ?_⟩
  · rw [recv_fst, recv_fst, h2]
    exact read_data_fst_congr L b _ c s _ data len h1
  · simp only [recv_data_processing, readSnRX_RD, writeSnRX_RD, if_true]
    obtain ⟨_, _, _, h4⟩ := read_data_chip L b
      { c with log := c.log ++ [Access.readSnRX_RD s] } s (u16 (c.SnRX_RD s)) data len
    rw [pointerWrites_append, h4]
    simp [pointerWrites, Access.isPointerWrite, List.filter_append, u16_u16]
  · simp only [recv_data_processing, readSnRX_RD, writeSnRX_RD, if_true]
    obtain ⟨_, h2', _, _⟩ := read_data_chip L b
      { c with log := c.log ++ [Access.readSnRX_RD s] } s (u16 (c.SnRX_RD s)) data len
    rw [h2']
    simp [u16_u16]

/-! ## Chip autodetection -/

/-- C5: for every device on the bus, either build and any mode bit constants,
`autodetect` returns `W5100Module` exactly when the four probes `RST`, `PINGBLOCK`,
`PPOE`, `RST|PPOE`, issued in this order through `exploratory_modewrite`, read back `0`,
`PINGBLOCK`, `PPOE`, `0`; it returns `W5200Module` exactly when some readback deviates;
and it always returns one of the two. -/
theorem autodetect_decision {σ : Type} (B : Bus σ) (bld : Build) (M : ModeBits)
    (st : Spi σ) :
    ((autodetect B bld M st).1 = Variant.W5100Module
        ↔ probeReadbacks B bld M st = (0, M.PINGBLOCK, M.PPOE, 0))
      ∧ ((autodetect B bld M st).1 = Variant.W5200Module
        ↔ probeReadbacks B bld M st ≠ (0, M.PINGBLOCK, M.PPOE, 0))
      ∧ ((autodetect B bld M st).1 = Variant.W5100Module
        ∨ (autodetect B bld M st).1 = Variant.W5200Module) := by
  simp only [autodetect, probeReadbacks]
  split_ifs <;> simp_all

/-- The readback of a probe on a bus that answers every call with `c`. -/
theorem exploratory_modewrite_const {σ : Type} (B : Bus σ) (c : Nat)
    (hB : ∀ d op, (B.step d op).2 = c) (bld : Build) (m : Nat) (st : Spi σ) :
    (exploratory_modewrite B bld m st).1 = u8 c := by
  cases bld <;> simp [exploratory_modewrite, spi, hB]

/-- C9: on a bus whose every exchange answers the same fixed byte `c` (any `c`, zero
included), `autodetect` returns `W5200Module`, provided `PINGBLOCK` is non-zero: the
constant cannot be both the `0` expected after `RST` and the `PINGBLOCK` expected after
`PINGBLOCK`. -/
theorem autodetect_constant_bus {σ : Type} (B : Bus σ) (c : Nat) (bld : Build)
    (M : ModeBits) (st : Spi σ) (hB : ∀ d op, (B.step d op).2 = c)
    (hP : M.PINGBLOCK ≠ 0) :
    (autodetect B bld M st).1 = Variant.W5200Module := by
  simp only [autodetect]
  split_ifs with h1 h2 h3 h4
  · exfalso
    rw [exploratory_modewrite_const B c hB] at h1 h2
    exact hP (h2.symm.trans h1)
  · rfl
  · rfl
  · rfl
  · rfl

/-- C9 at a concrete input: the W5100 mode bits (`PINGBLOCK = 0x10`) and the simulated
bus that answers 0 to everything. -/
theorem autodetect_constant_bus_witness :
    ((∀ (d : Unit) (op : SpiOp), ((constantDevice 0).step d op).2 = 0)
        ∧ w5100ModeBits.PINGBLOCK ≠ 0)
      ∧ (autodetect (constantDevice 0) Build.avr w5100ModeBits ⟨(), []⟩).1
          = Variant.W5200Module :=
  ⟨⟨fun _ _ => rfl, by decide⟩,
    autodetect_constant_bus (constantDevice 0) 0 Build.avr w5100ModeBits ⟨(), []⟩
      (fun _ _ => rfl) (by decide)⟩

set_option maxRecDepth 20000

/-- C8, the claim refuted: the simulated bus that perfectly echoes mode writes reads back
0x80, 0x10, 0x08, 0x88 for the probes 0x80, 0x10, 0x08, 0x88, and `autodetect` returns
`W5200Module` on it, in both builds. -/
theorem autodetect_echo_counterexample :
    probeReadbacks echoDevice Build.avr w5100ModeBits ⟨([], 0), []⟩
        = (0x80, 0x10, 0x08, 0x88)
      ∧ (autodetect echoDevice Build.avr w5100ModeBits ⟨([], 0), []⟩).1
          = Variant.W5200Module
      ∧ (autodetect echoDevice Build.other w5100ModeBits ⟨([], 0), []⟩).1
          = Variant.W5200Module := by
  refine ⟨?_, ?_, ?_⟩ <;> rfl

/-! ## Debounced size reads -/

/-- One iteration whose first read is zero: it returns at once when the value kept in
`val` is zero, and otherwise goes round again without a confirming read. -/
theorem sizeLoop_zero (val n : Nat) (rest : List Nat) :
    sizeLoop val n (0 :: rest)
      = if val = 0 then some (0, n + 1) else sizeLoop val (n + 1) rest := by
  cases rest with
  | nil => by_cases h : val = 0 <;> simp [sizeLoop, h]
  | cons r rest => by_cases h : val = 0 <;> simp [sizeLoop, h]

/-- One iteration whose two reads are non-zero and equal returns that value. -/
theorem sizeLoop_agree (val n v : Nat) (rest : List Nat) (hv : v ≠ 0) :
    sizeLoop val n (v :: v :: rest) = some (v, n + 2) := by
  simp [sizeLoop, hv]

/-- One iteration whose first read is non-zero and whose confirming read differs is
discarded: the loop goes round again, keeping the confirming read in `val`. -/
theorem sizeLoop_torn (val n a b : Nat) (rest : List Nat) (ha : a ≠ 0) (hb : b ≠ a) :
    sizeLoop val n (a :: b :: rest) = sizeLoop b (n + 2) rest := by
  simp [sizeLoop, ha, hb]

/-- A run of torn iterations is discarded as a whole. -/
theorem sizeLoop_pairReads (torn : List (Nat × Nat))
    (htorn : ∀ p ∈ torn, p.1 ≠ 0 ∧ p.2 ≠ p.1) (val n : Nat) (rest : List Nat) :
    sizeLoop val n (pairReads torn ++ rest)
      = sizeLoop ((torn.map Prod.snd).getLastD val) (n + 2 * torn.length) rest := by
  induction torn generalizing val n with
  | nil => simp [pairReads]
  | cons p torn ih =>
    have hp := htorn p (List.mem_cons_self _ _)
    have ht : ∀ q ∈ torn, q.1 ≠ 0 ∧ q.2 ≠ q.1 :=
      fun q hq => htorn q (List.mem_cons_of_mem _ hq)
    simp only [pairReads, List.cons_append]
    rw [sizeLoop_torn val n p.1 p.2 _ hp.1 hp.2, ih ht]
    congr 1
    · cases torn <;> simp [List.getLastD]
    · simp only [List.length_cons]; omega

/-- C6, the claim refuted: on the reads 3, 7, 7 both functions ask for a fourth read
instead of returning 7 after three; and on 3, 7, 7, 9, 9, 9, where the second and third
read agree, they read on and return 9 after six reads. -/
theorem size_consecutive_counterexample :
    getRXReceivedSize (fun _ => [3, 7, 7]) 0 = none
      ∧ getTXFreeSize (fun _ => [3, 7, 7]) 0 = none
      ∧ getRXReceivedSize (fun _ => [3, 7, 7, 9, 9, 9]) 0 = some (9, 6)
      ∧ getTXFreeSize (fun _ => [3, 7, 7, 9, 9, 9]) 0 = some (9, 6) := by
  decide

/-- C6 as amended: `getRXReceivedSize` and `getTXFreeSize` return as soon as the two
reads of one loop iteration agree: after any run of iterations whose first read is
non-zero and whose confirming read differs, a non-zero pair `v, v` makes them return `v`
with no read after that pair, whatever reads would follow. -/
theorem size_returns_on_agreeing_pair (torn : List (Nat × Nat)) (v s : Nat)
    (rest : List Nat) (htorn : ∀ p ∈ torn, p.1 ≠ 0 ∧ p.2 ≠ p.1) (hv : v ≠ 0) :
    getRXReceivedSize (fun _ => pairReads torn ++ v :: v :: rest) s
        = some (v, 2 * torn.length + 2)
      ∧ getTXFreeSize (fun _ => pairReads torn ++ v :: v :: rest) s
        = some (v, 2 * torn.length + 2) := by
  have h := sizeLoop_pairReads torn htorn 0 0 (v :: v :: rest)
  rw [sizeLoop_agree _ _ v rest hv] at h
  simp only [getRXReceivedSize, getTXFreeSize, h]
  simp only [Nat.zero_add, and_self]

/-- C6 as amended, at the reads 3, 7, 7, 7: the torn pair 3, 7 is discarded and 7 is
returned after exactly four reads. -/
theorem size_returns_on_agreeing_pair_witness :
    ((∀ p ∈ [((3 : Nat), (7 : Nat))], p.1 ≠ 0 ∧ p.2 ≠ p.1) ∧ (7 : Nat) ≠ 0)
      ∧ (getRXReceivedSize (fun _ => pairReads [(3, 7)] ++ 7 :: 7 :: []) 0
          = some (7, 2 * [((3 : Nat), (7 : Nat))].length + 2)
        ∧ getTXFreeSize (fun _ => pairReads [(3, 7)] ++ 7 :: 7 :: []) 0
          = some (7, 2 * [((3 : Nat), (7 : Nat))].length + 2)) :=
  ⟨⟨by decide, by decide⟩,
    size_returns_on_agreeing_pair [(3, 7)] 7 0 [] (by decide) (by decide)⟩

/-- C7, the claim refuted: on the reads 3, 0, 5, 5 the second read returns 0, yet both
functions read twice more and return 5. -/
theorem size_zero_counterexample :
    getRXReceivedSize (fun _ => [3, 0, 5, 5]) 0 = some (5, 4)
      ∧ getTXFreeSize (fun _ => [3, 0, 5, 5]) 0 = some (5, 4) := by
  decide

/-- C7 as amended: `getTXFreeSize` and `getRXReceivedSize` return 0 without a further
read when the first read of the call returns 0. In any iteration of the loop (entered
with any `val` after any number `n` of reads, in particular after any run of torn
iterations of a call) a zero returned by the confirming read after a non-zero first read
`a` is a mismatch: the pair is discarded and the loop retries with `val = 0`, and a zero
first read right after it is then accepted at once. And in any iteration two equal
non-zero reads `v, v` end the loop with `v`. -/
theorem size_zero_fast_path (s a v val n : Nat) (torn : List (Nat × Nat))
    (rest : List Nat) (ha : a ≠ 0) (hv : v ≠ 0)
    (htorn : ∀ p ∈ torn, p.1 ≠ 0 ∧ p.2 ≠ p.1) :
    (getTXFreeSize (fun _ => 0 :: rest) s = some (0, 1)
        ∧ getRXReceivedSize (fun _ => 0 :: rest) s = some (0, 1))
      ∧ (sizeLoop val n (a :: 0 :: rest) = sizeLoop 0 (n + 2) rest
        ∧ sizeLoop val n (a :: 0 :: 0 :: rest) = some (0, n + 3))
      ∧ (getTXFreeSize (fun _ => pairReads torn ++ a :: 0 :: rest) s
          = sizeLoop 0 (2 * torn.length + 2) rest
        ∧ getRXReceivedSize (fun _ => pairReads torn ++ a :: 0 :: rest) s
          = sizeLoop 0 (2 * torn.length + 2) rest)
      ∧ (getTXFreeSize (fun _ => pairReads torn ++ a :: 0 :: 0 :: rest) s
          = some (0, 2 * torn.length + 3)
        ∧ getRXReceivedSize (fun _ => pairReads torn ++ a :: 0 :: 0 :: rest) s
          = some (0, 2 * torn.length + 3))
      ∧ sizeLoop val n (v :: v :: rest) = some (v, n + 2) := by
  have h0 : sizeLoop 0 0 (0 :: rest) = some (0, 1) := by
    rw [sizeLoop_zero]; simp
  have h1 : ∀ val n tail, sizeLoop val n (a :: 0 :: tail) = sizeLoop 0 (n + 2) tail := by
    intro val n tail
    rw [sizeLoop_torn val n a 0 tail ha (Ne.symm ha)]
  have h2 : ∀ val n, sizeLoop val n (a :: 0 :: 0 :: rest) = some (0, n + 3) := by
    intro val n
    rw [h1, sizeLoop_zero]; simp
  have h3 : sizeLoop 0 0 (pairReads torn ++ a :: 0 :: rest)
      = sizeLoop 0 (2 * torn.length + 2) rest := by
    rw [sizeLoop_pairReads torn htorn 0 0, h1, Nat.zero_add]
  have h4 : sizeLoop 0 0 (pairReads torn ++ a :: 0 :: 0 :: rest)
      = some (0, 2 * torn.length + 3) := by
    rw [sizeLoop_pairReads torn htorn 0 0, h2, Nat.zero_add]
  exact ⟨⟨h0, h0⟩, ⟨h1 val n rest, h2 val n⟩, ⟨h3, h3⟩, ⟨h4, h4⟩,
    sizeLoop_agree val n v rest hv⟩

/-- C7 as amended, at concrete reads: after the torn pair 3, 7 (which leaves 7 in `val`)
the pair 4, 0 is discarded and the zero read after it is accepted, so 3, 7, 4, 0, 0 gives
0 after five reads; and 5, 5 ends an iteration entered with `val = 9` after one read. -/
theorem size_zero_fast_path_witness :
    ((4 : Nat) ≠ 0 ∧ (5 : Nat) ≠ 0 ∧ (∀ p ∈ [((3 : Nat), (7 : Nat))], p.1 ≠ 0 ∧ p.2 ≠ p.1))
      ∧ ((getTXFreeSize (fun _ => 0 :: [6]) 0 = some (0, 1)
          ∧ getRXReceivedSize (fun _ => 0 :: [6]) 0 = some (0, 1))
        ∧ (sizeLoop 9 1 (4 :: 0 :: [6]) = sizeLoop 0 (1 + 2) [6]
          ∧ sizeLoop 9 1 (4 :: 0 :: 0 :: [6]) = some (0, 1 + 3))
        ∧ (getTXFreeSize (fun _ => pairReads [(3, 7)] ++ 4 :: 0 :: [6]) 0
            = sizeLoop 0 (2 * [((3 : Nat), (7 : Nat))].length + 2) [6]
          ∧ getRXReceivedSize (fun _ => pairReads [(3, 7)] ++ 4 :: 0 :: [6]) 0
            = sizeLoop 0 (2 * [((3 : Nat), (7 : Nat))].length + 2) [6])
        ∧ (getTXFreeSize (fun _ => pairReads [(3, 7)] ++ 4 :: 0 :: 0 :: [6]) 0
            = some (0, 2 * [((3 : Nat), (7 : Nat))].length + 3)
          ∧ getRXReceivedSize (fun _ => pairReads [(3, 7)] ++ 4 :: 0 :: 0 :: [6]) 0
            = some (0, 2 * [((3 : Nat), (7 : Nat))].length + 3))
        ∧ sizeLoop 9 1 (5 :: 5 :: [6]) = some (5, 1 + 2)) :=
  ⟨⟨by decide, by decide, by decide⟩,
    size_zero_fast_path 0 4 5 9 1 [(3, 7)] [6] (by decide) (by decide) (by decide)⟩

/-- C10: on a stable register, every read returning the same value, `getRXReceivedSize`
and `getTXFreeSize` return that value, after exactly one read when it is 0 and after
exactly two reads when it is non-zero (written `v + 1`); reads 5, 5 give 5 after two
reads and the single read 0 gives 0 after one read. -/
theorem size_stable_register (v n s : Nat) :
    (getRXReceivedSize (fun _ => List.replicate (n + 1) 0) s = some (0, 1)
        ∧ getTXFreeSize (fun _ => List.replicate (n + 1) 0) s = some (0, 1))
      ∧ (getRXReceivedSize (fun _ => List.replicate (n + 2) (v + 1)) s = some (v + 1, 2)
        ∧ getTXFreeSize (fun _ => List.replicate (n + 2) (v + 1)) s = some (v + 1, 2))
      ∧ (getRXReceivedSize (fun _ => [5, 5]) s = some (5, 2)
        ∧ getTXFreeSize (fun _ => [5, 5]) s = some (5, 2))
      ∧ (getRXReceivedSize (fun _ => [0]) s = some (0, 1)
        ∧ getTXFreeSize (fun _ => [0]) s = some (0, 1)) := by
  have h0 : sizeLoop 0 0 (List.replicate (n + 1) 0) = some (0, 1) := by
    rw [List.replicate_succ, sizeLoop_zero]; simp
  have h1 : sizeLoop 0 0 (List.replicate (n + 2) (v + 1)) = some (v + 1, 2) := by
    rw [List.replicate_succ, List.replicate_succ, sizeLoop_agree 0 0 (v + 1) _ (by omega)]
  exact ⟨⟨h0, h0⟩, ⟨h1, h1⟩, ⟨rfl, rfl⟩, ⟨rfl, rfl⟩⟩

/-! ## Bus traces -/

theorem spiAll_log {σ : Type} (B : Bus σ) (ops : List SpiOp) (st : Spi σ) :
    (spiAll B ops st).log = st.log ++ ops := by
  induction ops generalizing st with
  | nil => simp [spiAll]
  | cons op ops ih => simp [spiAll, ih, spi]

theorem spiAll_append {σ : Type} (B : Bus σ) (ops₁ ops₂ : List SpiOp) (st : Spi σ) :
    spiAll B (ops₁ ++ ops₂) st = spiAll B ops₂ (spiAll B ops₁ st) := by
  induction ops₁ generalizing st with
  | nil => rfl
  | cons op ops ih => simp [spiAll, ih]

theorem busBytes_append (ops₁ ops₂ : List SpiOp) :
    busBytes (ops₁ ++ ops₂) = busBytes ops₁ ++ busBytes ops₂ := by
  induction ops₁ with
  | nil => rfl
  | cons op ops ih => cases op <;> simp [busBytes, ih]

theorem busBytes_map_transfer (f : Nat → Nat) (l : List Nat) :
    busBytes (l.map (fun i => SpiOp.transfer (f i))) = l.map f := by
  induction l with
  | nil => rfl
  | cons a l ih => simp [busBytes, ih]

theorem busBytes_map_transferCS (f : Nat → Nat) (g : Nat → Bool) (l : List Nat) :
    busBytes (l.map (fun i => SpiOp.transferCS (f i) (g i))) = l.map f := by
  induction l with
  | nil => rfl
  | cons a l ih => simp [busBytes, ih]

theorem busBytes_map_transferDefault (f : Nat → Nat) (g : Nat → Bool) (l : List Nat) :
    busBytes (l.map (fun i => SpiOp.transferDefault (f i) (g i))) = l.map f := by
  induction l with
  | nil => rfl
  | cons a l ih => simp [busBytes, ih]

theorem busBytes_replicate_transfer (n d : Nat) :
    busBytes (List.replicate n (SpiOp.transfer d)) = List.replicate n d := by
  induction n with
  | zero => rfl
  | succ n ih => simp [List.replicate_succ, busBytes, ih]

theorem range_succ_map_shift {α : Type} (f : Nat → α) (n : Nat) :
    (List.range (n + 1)).map f = f 0 :: (List.range n).map (fun j => f (j + 1)) := by
  rw [List.range_succ_eq_map]
  simp [List.map_map, Function.comp_def]

/-- A transfer loop makes the calls `op i`, `op (i+1)`, ... in order. -/
theorem transferLoop_state {σ : Type} (B : Bus σ) (op : Nat → SpiOp) (n i : Nat)
    (buf : Nat → Nat) (st : Spi σ) :
    (transferLoop B op n i buf st).2
      = spiAll B ((List.range n).map (fun j => op (i + j))) st := by
  induction n generalizing i buf st with
  | zero => rfl
  | succ n ih =>
    rw [range_succ_map_shift]
    simp only [transferLoop, spiAll, Nat.add_zero]
    rw [ih]
    congr 2
    funext j
    congr 1
    omega

/-- A transfer loop stores the answer to its `k`-th call in `_buf[i + k]` and leaves the
rest of the buffer alone. -/
theorem transferLoop_buf {σ : Type} (B : Bus σ) (op : Nat → SpiOp) (n i : Nat)
    (buf : Nat → Nat) (st : Spi σ) (k : Nat) :
    (transferLoop B op n i buf st).1 k
      = if i ≤ k ∧ k < i + n
        then (spiAnswers B ((List.range n).map (fun j => op (i + j))) st).getD (k - i) 0
        else buf k := by
  induction n generalizing i buf st with
  | zero =>
    rw [if_neg (by omega)]
    rfl
  | succ n ih =>
    rw [range_succ_map_shift]
    simp only [transferLoop, spiAnswers, Nat.add_zero]
    rw [ih]
    have hfun : (fun j => op (i + 1 + j)) = (fun j => op (i + (j + 1))) := by
      funext j; congr 1; omega
    rw [hfun]
    by_cases h1 : i + 1 ≤ k ∧ k < i + 1 + n
    · rw [if_pos h1, if_pos (by omega)]
      obtain ⟨d, hd⟩ : ∃ d, k - i = d + 1 := ⟨k - i - 1, by omega⟩
      rw [hd, List.getD_cons_succ]
      congr 1; omega
    · rw [if_neg h1]
      by_cases h2 : k = i
      · subst h2
        simp
      · rw [Function.update_noteq h2, if_neg (by omega)]

/-! ## Variant A block access -/

theorem range_succ_flatMap_shift {α : Type} (f : Nat → List α) (n : Nat) :
    (List.range (n + 1)).flatMap f = f 0 ++ (List.range n).flatMap (fun j => f (j + 1)) := by
  rw [List.range_succ_eq_map]
  simp [List.flatMap, List.map_map, Function.comp_def]

theorem busBytes_flatMap (f : Nat → List SpiOp) (l : List Nat) :
    busBytes (l.flatMap f) = l.flatMap (fun i => busBytes (f i)) := by
  induction l with
  | nil => rfl
  | cons a l ih => simp [List.flatMap_cons, busBytes_append, ih]

/-- `W5100Module::write` makes the calls of one write frame and returns 1. -/
theorem W5100Module.write_frame {σ : Type} (B : Bus σ) (bld : Build) (a d : Nat)
    (st : Spi σ) :
    W5100Module.write B bld a d st = (1, spiAll B (w5100WriteFrame bld (u16 a) d) st) := by
  cases bld <;> rfl

/-- `W5100Module::read` makes the calls of one read frame and returns the answer to the
fourth exchange. -/
theorem W5100Module.read_frame {σ : Type} (B : Bus σ) (bld : Build) (a : Nat)
    (st : Spi σ) :
    W5100Module.read B bld a st
      = ((spiAnswers B (w5100ReadFrame bld (u16 a)) st).getD (w5100ReadSlot bld) 0,
          spiAll B (w5100ReadFrame bld (u16 a)) st) := by
  cases bld <;> rfl

theorem W5100Module.write_loop_state {σ : Type} (B : Bus σ) (bld : Build)
    (buf : Nat → Nat) (n a i : Nat) (st : Spi σ) :
    W5100Module.write_loop B bld buf n (u16 a) i st
      = spiAll B ((List.range n).flatMap
          (fun j => w5100WriteFrame bld (u16 (a + j)) (buf (i + j)))) st := by
  induction n generalizing a i st with
  | zero => rfl
  | succ n ih =>
    rw [range_succ_flatMap_shift, spiAll_append]
    simp only [W5100Module.write_loop, Nat.add_zero]
    rw [u16_add_u16_left, ih]
    have hf : (fun j => w5100WriteFrame bld (u16 (a + 1 + j)) (buf (i + 1 + j)))
        = (fun j => w5100WriteFrame bld (u16 (a + (j + 1))) (buf (i + (j + 1)))) := by
      funext j
      rw [show a + 1 + j = a + (j + 1) by omega, show i + 1 + j = i + (j + 1) by omega]
    rw [hf]
    congr 1
    cases bld <;> rfl

theorem W5100Module.write_loop_fold {σ : Type} (B : Bus σ) (bld : Build)
    (buf : Nat → Nat) (n a i : Nat) (st : Spi σ) :
    W5100Module.write_loop B bld buf n (u16 a) i st
      = (List.range n).foldl
          (fun s j => (W5100Module.write B bld (u16 (a + j)) (buf (i + j)) s).2) st := by
  induction n generalizing a i st with
  | zero => rfl
  | succ n ih =>
    rw [List.range_succ_eq_map, List.foldl_cons, List.foldl_map]
    simp only [W5100Module.write_loop, Nat.add_zero]
    rw [u16_add_u16_left, ih]
    have hf : (fun s j => (W5100Module.write B bld (u16 (a + 1 + j)) (buf (i + 1 + j)) s).2)
        = (fun s j => (W5100Module.write B bld (u16 (a + j.succ)) (buf (i + j.succ)) s).2) := by
      funext s j
      rw [show a + 1 + j = a + j.succ by omega, show i + 1 + j = i + j.succ by omega]
    rw [hf]
    congr 1
    rw [W5100Module.write_frame, u16_u16]
    cases bld <;> rfl

theorem W5100Module.read_loop_state {σ : Type} (B : Bus σ) (bld : Build)
    (n a i : Nat) (buf : Nat → Nat) (st : Spi σ) :
    (W5100Module.read_loop B bld n (u16 a) i buf st).2
      = spiAll B ((List.range n).flatMap (fun j => w5100ReadFrame bld (u16 (a + j)))) st := by
  induction n generalizing a i buf st with
  | zero => rfl
  | succ n ih =>
    rw [range_succ_flatMap_shift, spiAll_append]
    have hf : (fun j => w5100ReadFrame bld (u16 (a + 1 + j)))
        = (fun j => w5100ReadFrame bld (u16 (a + (j + 1)))) := by
      funext j
      rw [show a + 1 + j = a + (j + 1) by omega]
    cases bld
    · simp only [W5100Module.read_loop, Nat.add_zero]
      rw [u16_add_u16_left, ih, hf]
      rfl
    · simp only [W5100Module.read_loop, Nat.add_zero]
      rw [u16_add_u16_left, ih, hf]
      rfl

/-- The buffer after the read loop: `_buf[i + k]` holds the answer to the fourth exchange
of frame `k`, the rest is untouched. -/
theorem W5100Module.read_loop_buf {σ : Type} (B : Bus σ) (bld : Build)
    (n a i : Nat) (buf : Nat → Nat) (st : Spi σ) (k : Nat) :
    (W5100Module.read_loop B bld n (u16 a) i buf st).1 k
      = if i ≤ k ∧ k < i + n
        then (spiAnswers B (w5100ReadFrame bld (u16 (a + (k - i))))
            (spiAll B ((List.range (k - i)).flatMap
              (fun j => w5100ReadFrame bld (u16 (a + j)))) st)).getD (w5100ReadSlot bld) 0
        else buf k := by
  induction n generalizing a i buf st with
  | zero =>
    rw [if_neg (by omega)]
    rfl
  | succ n ih =>
    have hstep : (W5100Module.read_loop B bld (n + 1) (u16 a) i buf st).1
        = (W5100Module.read_loop B bld n (u16 (a + 1)) (i + 1)
            (Function.update buf i
              ((spiAnswers B (w5100ReadFrame bld (u16 a)) st).getD (w5100ReadSlot bld) 0))
            (spiAll B (w5100ReadFrame bld (u16 a)) st)).1 := by
      cases bld
      · simp only [W5100Module.read_loop]
        rw [u16_add_u16_left]
        rfl
      · simp only [W5100Module.read_loop]
        rw [u16_add_u16_left]
        rfl
    rw [hstep, ih]
    by_cases h1 : i + 1 ≤ k ∧ k < i + 1 + n
    · rw [if_pos h1, if_pos (by omega)]
      obtain ⟨d, hd⟩ : ∃ d, k - i = d + 1 := ⟨k - i - 1, by omega⟩
      have hd' : k - (i + 1) = d := by omega
      rw [hd, hd', range_succ_flatMap_shift, spiAll_append, Nat.add_zero]
      have hf : (fun j => w5100ReadFrame bld (u16 (a + 1 + j)))
          = (fun j => w5100ReadFrame bld (u16 (a + (j + 1)))) := by
        funext j
        rw [show a + 1 + j = a + (j + 1) by omega]
      rw [hf, show a + 1 + d = a + (d + 1) by omega]
      rfl
    · rw [if_neg h1]
      by_cases h2 : k = i
      · subst h2
        rw [Function.update_same, if_pos (by omega)]
        simp [spiAll]
      · rw [Function.update_noteq h2, if_neg (by omega)]

/-- C13: the Variant A block write returns `len` and makes exactly the calls of `len`
write frames, frame `i` carrying `[0xF0, hi, lo, buf[i]]` for the address
`(a + i) mod 2^16`; its effect on the bus is that of the single-byte writes
`write((a + i) mod 2^16, buf[i])` made one after the other. The block read returns `len`
and makes the calls of `len` read frames `[0x0F, hi, lo, 0x00]`; `buf[i]` receives the
answer to the fourth exchange of frame `i` and the buffer is untouched from `len` on. -/
theorem W5100Module.block_frames {σ : Type} (B : Bus σ) (bld : Build) (a len : Nat)
    (buf : Nat → Nat) (st : Spi σ) :
    ((W5100Module.write_block B bld a buf len st).1 = len
        ∧ (W5100Module.write_block B bld a buf len st).2.log
          = st.log ++ (List.range len).flatMap
              (fun i => w5100WriteFrame bld (u16 (a + i)) (buf i))
        ∧ busBytes ((List.range len).flatMap
              (fun i => w5100WriteFrame bld (u16 (a + i)) (buf i)))
          = (List.range len).flatMap
              (fun i => [0xF0, u16 (a + i) >>> 8, u16 (a + i) &&& 0xFF, buf i])
        ∧ (W5100Module.write_block B bld a buf len st).2
          = (List.range len).foldl
              (fun s i => (W5100Module.write B bld (u16 (a + i)) (buf i) s).2) st)
      ∧ ((W5100Module.read_block B bld a buf len st).1.1 = len
        ∧ (W5100Module.read_block B bld a buf len st).2.log
          = st.log ++ (List.range len).flatMap (fun i => w5100ReadFrame bld (u16 (a + i)))
        ∧ busBytes ((List.range len).flatMap (fun i => w5100ReadFrame bld (u16 (a + i))))
          = (List.range len).flatMap
              (fun i => [0x0F, u16 (a + i) >>> 8, u16 (a + i) &&& 0xFF, 0x00])
        ∧ (W5100Module.read_block B bld a buf len st).1.2
          = (fun i => if i < len
              then (spiAnswers B (w5100ReadFrame bld (u16 (a + i)))
                  (spiAll B ((List.range i).flatMap
                    (fun j => w5100ReadFrame bld (u16 (a + j)))) st)).getD
                  (w5100ReadSlot bld) 0
              else buf i)) := by
  refine ⟨⟨rfl, ?_, ?_, ?_⟩, ⟨rfl, ?_, ?_, ?_⟩⟩
  · simp only [W5100Module.write_block]
    have h := W5100Module.write_loop_state B bld buf len a 0 st
    simp only [Nat.zero_add] at h
    rw [h, spiAll_log]
  · rw [busBytes_flatMap]
    congr 1
    funext i
    cases bld <;> rfl
  · simp only [W5100Module.write_block]
    have h := W5100Module.write_loop_fold B bld buf len a 0 st
    simp only [Nat.zero_add] at h
    exact h
  · simp only [W5100Module.read_block]
    rw [W5100Module.read_loop_state, spiAll_log]
  · rw [busBytes_flatMap]
    congr 1
    funext i
    cases bld <;> rfl
  · funext i
    simp only [W5100Module.read_block]
    rw [W5100Module.read_loop_buf]
    simp only [Nat.zero_le, true_and, Nat.zero_add, Nat.sub_zero]

/-! ## Variant B block access -/

theorem and_div_two_pow (a b k : Nat) : (a &&& b) / 2 ^ k = a / 2 ^ k &&& b / 2 ^ k := by
  induction k with
  | zero => simp
  | succ k ih =>
    rw [Nat.pow_succ, ← Nat.div_div_eq_div_mul, ← Nat.div_div_eq_div_mul,
      ← Nat.div_div_eq_div_mul, ih, Nat.and_div_two]

/-- The high length bits `(len & 0x7F00) >> 8` are bits 8 to 14 of `len`. -/
theorem high_length_bits (len : Nat) : (len &&& 0x7F00) >>> 8 = len / 256 % 128 := by
  rw [Nat.shiftRight_eq_div_pow, and_div_two_pow]
  exact Nat.and_pow_two_sub_one_eq_mod (len / 2 ^ 8) 7

theorem flag_bits : ∀ y, y < 128 →
    (0x80 ||| y) &&& 0x7F = y ∧ (0x80 ||| y) &&& 0x80 = 0x80 ∧ (0x00 ||| y) &&& 0x7F = y
      ∧ (0x00 ||| y) &&& 0x80 = 0 := by
  decide

/-- The length a Variant B chip decodes from the header is `len` without its bits 15 and
up, whatever the direction flag. -/
theorem decodedLength_header (len : Nat) :
    decodedLength (W5200_WRITE_FLAG ||| ((len &&& 0x7F00) >>> 8)) (len &&& 0xFF)
        = len % 0x8000
      ∧ decodedLength (W5200_READ_FLAG ||| ((len &&& 0x7F00) >>> 8)) (len &&& 0xFF)
        = len % 0x8000 := by
  have hy : len / 256 % 128 < 128 := Nat.mod_lt _ (by decide)
  obtain ⟨h1, _, h3, _⟩ := flag_bits _ hy
  have hlow : len &&& 0xFF = len % 256 := Nat.and_pow_two_sub_one_eq_mod len 8
  have hz : len % 256 < 2 ^ 8 := Nat.mod_lt _ (by decide)
  have hor : (len / 256 % 128) <<< 8 ||| len % 256 = len % 0x8000 := by
    rw [Nat.shiftLeft_eq, Nat.mul_comm, ← Nat.mul_add_lt_is_or hz]
    omega
  simp only [decodedLength, W5200_WRITE_FLAG, W5200_READ_FLAG, high_length_bits, hlow]
  rw [h1, h3]
  exact ⟨hor, hor⟩

theorem ssReleases_append (ops₁ ops₂ : List SpiOp) :
    ssReleases (ops₁ ++ ops₂) = ssReleases ops₁ + ssReleases ops₂ := by
  simp [ssReleases, List.countP_append]

theorem ssReleases_map_transfer (f : Nat → Nat) (l : List Nat) :
    ssReleases (l.map (fun i => SpiOp.transfer (f i))) = 0 := by
  induction l with
  | nil => rfl
  | cons a l ih =>
    simp only [ssReleases, List.map_cons, List.countP_cons] at ih ⊢
    simp [ih, SpiOp.releasesSS]

/-- Data bytes sent with `SPI_LAST` on the one with `i + 1 = n` only: one release of chip
select when there is a byte, none otherwise. -/
theorem ssReleases_last_flag (g : Nat → SpiOp) (n : Nat)
    (hg : ∀ i, (g i).releasesSS = decide (i + 1 = n)) :
    ssReleases ((List.range n).map g) = if n = 0 then 0 else 1 := by
  cases n with
  | zero => rfl
  | succ n =>
    rw [List.range_succ, List.map_append, ssReleases_append]
    have h0 : ssReleases ((List.range n).map g) = 0 := by
      simp only [ssReleases, List.countP_eq_zero, List.mem_map, List.mem_range]
      rintro op ⟨i, hi, rfl⟩
      rw [hg i]
      simp
      omega
    rw [h0]
    simp [ssReleases, hg]

/-- The calls of the Variant B block write in the AVR build. -/
theorem W5200Module.write_block_avr {σ : Type} (B : Bus σ) (a len : Nat) (buf : Nat → Nat)
    (st : Spi σ) :
    (W5200Module.write_block B Build.avr a buf len st).2.log
      = st.log ++ ([SpiOp.setSS]
          ++ (w5200Header W5200_WRITE_FLAG a len).map SpiOp.transfer
          ++ (List.range len).map (fun i => SpiOp.transfer (buf i))
          ++ [SpiOp.resetSS]) := by
  simp [W5200Module.write_block, spiAll_log, w5200Header]

/-- The calls of the Variant B block write in the non-AVR build. -/
theorem W5200Module.write_block_other {σ : Type} (B : Bus σ) (a len : Nat)
    (buf : Nat → Nat) (st : Spi σ) :
    (W5200Module.write_block B Build.other a buf len st).2.log
      = st.log ++ ((w5200Header W5200_WRITE_FLAG a len).map
            (fun d => SpiOp.transferCS d false)
          ++ (List.range len).map
            (fun i => SpiOp.transferCS (buf i) (decide (i + 1 = len)))) := by
  simp [W5200Module.write_block, spiAll_log, w5200Header]

/-- C12: the Variant B block write returns `len` and puts on the bus the header
`[a >> 8, a & 0xFF, 0x80 | ((len & 0x7F00) >> 8), len & 0xFF]` followed by
`buf[0..len-1]`; the header decodes to `len mod 0x8000` (so to `len` up to 0x7FFF) and
has the direction bit set. In the AVR build the calls are `setSS`, the bytes, `resetSS`,
one chip-select frame for every `len`. In the non-AVR build every byte but the last data
byte is sent with `SPI_CONTINUE`: one frame when `len > 0`, but with `len = 0` the four
header bytes are sent with `SPI_CONTINUE` and chip select is never released. -/
theorem W5200Module.write_block_frame {σ : Type} (B : Bus σ) (bld : Build) (a len : Nat)
    (buf : Nat → Nat) (st : Spi σ) :
    (W5200Module.write_block B bld a buf len st).1 = len
      ∧ busBytes ((W5200Module.write_block B bld a buf len st).2.log.drop st.log.length)
          = w5200Header W5200_WRITE_FLAG a len ++ (List.range len).map buf
      ∧ decodedLength (W5200_WRITE_FLAG ||| ((len &&& 0x7F00) >>> 8)) (len &&& 0xFF)
          = len % 0x8000
      ∧ (W5200_WRITE_FLAG ||| ((len &&& 0x7F00) >>> 8)) &&& 0x80 = 0x80
      ∧ (W5200Module.write_block B Build.avr a buf len st).2.log
          = st.log ++ ([SpiOp.setSS]
              ++ (w5200Header W5200_WRITE_FLAG a len).map SpiOp.transfer
              ++ (List.range len).map (fun i => SpiOp.transfer (buf i))
              ++ [SpiOp.resetSS])
      ∧ (W5200Module.write_block B Build.other a buf len st).2.log
          = st.log ++ ((w5200Header W5200_WRITE_FLAG a len).map
                (fun d => SpiOp.transferCS d false)
              ++ (List.range len).map
                (fun i => SpiOp.transferCS (buf i) (decide (i + 1 = len))))
      ∧ ssReleases ((W5200Module.write_block B Build.other a buf len st).2.log.drop
            st.log.length)
          = (if len = 0 then 0 else 1)
      ∧ (W5200Module.write_block B Build.other 0x1234 buf 0 st).2.log
          = st.log ++ [SpiOp.transferCS 0x12 false, SpiOp.transferCS 0x34 false,
              SpiOp.transferCS 0x80 false, SpiOp.transferCS 0x00 false] := by
  have hflag : (W5200_WRITE_FLAG ||| ((len &&& 0x7F00) >>> 8)) &&& 0x80 = 0x80 := by
    rw [high_length_bits]
    exact (flag_bits _ (Nat.mod_lt _ (by decide))).2.1
  refine ⟨?_, ?_, (decodedLength_header len).1, hflag, W5200Module.write_block_avr B a len buf st,
    W5200Module.write_block_other B a len buf st, ?_, ?_⟩
  · cases bld <;> rfl
  · cases bld
    · rw [W5200Module.write_block_avr, List.drop_left]
      simp [busBytes_append, busBytes_map_transfer, busBytes, w5200Header]
    · rw [W5200Module.write_block_other, List.drop_left]
      simp [busBytes_append, busBytes_map_transferCS, busBytes, w5200Header]
  · rw [W5200Module.write_block_other, List.drop_left, ssReleases_append]
    rw [ssReleases_last_flag (fun i => SpiOp.transferCS (buf i) (decide (i + 1 = len))) len
      (fun i => rfl)]
    simp [ssReleases, w5200Header, SpiOp.releasesSS]
  · rw [W5200Module.write_block_other]
    rfl

/-- C14, the claim refuted: a Variant B block write of 0x8000 bytes reports 0x8000 bytes
written, and its header carries flag byte 0x80 and length byte 0x00, which decode to the
length 0. -/
theorem W5200Module.oversize_counterexample :
    (W5200Module.write_block (constantDevice 0) Build.avr 0 (fun _ => 0) 0x8000
        ⟨(), []⟩).1 = 0x8000
      ∧ (busBytes (W5200Module.write_block (constantDevice 0) Build.avr 0 (fun _ => 0) 0x8000
          ⟨(), []⟩).2.log).take 4 = [0x00, 0x00, 0x80, 0x00]
      ∧ decodedLength 0x80 0x00 = 0
      ∧ (W5200Module.read_block (constantDevice 0) Build.other 10 0 (fun _ => 0) 0x8000
          ⟨(), []⟩).1.1 = 0x8000 := by
  refine ⟨rfl, ?_, by decide, rfl⟩
  rw [W5200Module.write_block_avr]
  simp only [List.nil_append, busBytes_append, List.append_assoc]
  rfl

/-- C14 as amended: the Variant B block write and block read make no check on `len` and
have no error result; for every `len`, also above 0x7FFF, the block write puts on the bus
the header whose length field holds `len mod 0x8000`, follows it with `len` data bytes and
returns `len`, and the block read returns `len`. -/
theorem W5200Module.oversize_truncates {σ : Type} (B : Bus σ) (bld : Build)
    (SPI_CS a len : Nat) (buf : Nat → Nat) (st : Spi σ) :
    (W5200Module.write_block B bld a buf len st).1 = len
      ∧ busBytes ((W5200Module.write_block B bld a buf len st).2.log.drop st.log.length)
          = [u16 a >>> 8, u16 a &&& 0xFF, W5200_WRITE_FLAG ||| ((len &&& 0x7F00) >>> 8),
              len &&& 0xFF] ++ (List.range len).map buf
      ∧ ((List.range len).map buf).length = len
      ∧ decodedLength (W5200_WRITE_FLAG ||| ((len &&& 0x7F00) >>> 8)) (len &&& 0xFF)
          = len % 0x8000
      ∧ (W5200Module.read_block B bld SPI_CS a buf len st).1.1 = len := by
  refine ⟨?_, ?_, by simp, (decodedLength_header len).1, ?_⟩
  · cases bld <;> rfl
  · cases bld
    · rw [W5200Module.write_block_avr, List.drop_left]
      simp [busBytes_append, busBytes_map_transfer, busBytes, w5200Header]
    · rw [W5200Module.write_block_other, List.drop_left]
      simp [busBytes_append, busBytes_map_transferCS, busBytes, w5200Header]
  · cases bld <;> rfl

/-- The calls of the Variant B block read in the AVR build: no length byte is sent. -/
theorem W5200Module.read_block_avr {σ : Type} (B : Bus σ) (SPI_CS a len : Nat)
    (buf : Nat → Nat) (st : Spi σ) :
    (W5200Module.read_block B Build.avr SPI_CS a buf len st).2.log
      = st.log ++ ([SpiOp.setSS, SpiOp.transfer (u16 a >>> 8),
            SpiOp.transfer (u16 a &&& 0xFF), SpiOp.transfer W5200_READ_FLAG]
          ++ (List.range len).map (fun _ => SpiOp.transfer 0)
          ++ [SpiOp.resetSS]) := by
  simp [W5200Module.read_block, spiAll_log, transferLoop_state]

/-- The calls of the Variant B block read in the non-AVR build. -/
theorem W5200Module.read_block_other {σ : Type} (B : Bus σ) (SPI_CS a len : Nat)
    (buf : Nat → Nat) (st : Spi σ) :
    (W5200Module.read_block B Build.other SPI_CS a buf len st).2.log
      = st.log ++ ((w5200Header W5200_READ_FLAG a len).map
            (fun d => SpiOp.transferCS d false)
          ++ (List.range len).map
            (fun i => SpiOp.transferDefault SPI_CS (decide (i + 1 = len)))) := by
  simp [W5200Module.read_block, spiAll_log, transferLoop_state, w5200Header]

/-- C18: the Variant B block read returns `len` and stores the answers to its `len` data
exchanges in `buf[0..len-1]`, in both builds. In the non-AVR build it puts on the bus
the header `[a >> 8, a & 0xFF, 0x00 | ((len & 0x7F00) >> 8), len & 0xFF]` before them. In
the AVR build it sends only the three bytes `[a >> 8, a & 0xFF, 0x00]` before the data
exchanges, no length byte: for `a = 0x1234`, `len = 2` the bus carries
`[0x12, 0x34, 0x00, 0x00, 0x00]`. -/
theorem W5200Module.read_block_frame {σ : Type} (B : Bus σ) (bld : Build)
    (SPI_CS a len : Nat) (buf : Nat → Nat) (st : Spi σ) :
    (W5200Module.read_block B bld SPI_CS a buf len st).1.1 = len
      ∧ busBytes ((W5200Module.read_block B Build.other SPI_CS a buf len st).2.log.drop
            st.log.length)
          = w5200Header W5200_READ_FLAG a len ++ (List.range len).map (fun _ => SPI_CS)
      ∧ (W5200Module.read_block B Build.other SPI_CS a buf len st).1.2
          = (fun i => if i < len
              then (spiAnswers B ((List.range len).map
                    (fun i => SpiOp.transferDefault SPI_CS (decide (i + 1 = len))))
                  (spiAll B ((w5200Header W5200_READ_FLAG a len).map
                    (fun d => SpiOp.transferCS d false)) st)).getD i 0
              else buf i)
      ∧ busBytes ((W5200Module.read_block B Build.avr SPI_CS a buf len st).2.log.drop
            st.log.length)
          = [u16 a >>> 8, u16 a &&& 0xFF, W5200_READ_FLAG]
              ++ (List.range len).map (fun _ => 0)
      ∧ (W5200Module.read_block B Build.avr SPI_CS a buf len st).1.2
          = (fun i => if i < len
              then (spiAnswers B ((List.range len).map (fun _ => SpiOp.transfer 0))
                  (spiAll B [SpiOp.setSS, SpiOp.transfer (u16 a >>> 8),
                    SpiOp.transfer (u16 a &&& 0xFF), SpiOp.transfer W5200_READ_FLAG]
                    st)).getD i 0
              else buf i)
      ∧ busBytes ((W5200Module.read_block B Build.avr SPI_CS 0x1234 buf 2 st).2.log.drop
            st.log.length)
          = [0x12, 0x34, 0x00, 0x00, 0x00]
      ∧ w5200Header W5200_READ_FLAG 0x1234 2 = [0x12, 0x34, 0x00, 0x02] := by
  refine ⟨?_, ?_, ?_, ?_, ?_, ?_, by decide⟩
  · cases bld <;> rfl
  · rw [W5200Module.read_block_other, List.drop_left]
    simp [busBytes_append, busBytes_map_transferDefault, busBytes_map_transferCS, busBytes,
      w5200Header]
  · funext i
    simp only [W5200Module.read_block, transferLoop_buf, w5200Header, List.map_cons,
      List.map_nil, Nat.zero_le, true_and, Nat.zero_add, Nat.sub_zero]
  · rw [W5200Module.read_block_avr, List.drop_left]
    simp [busBytes_append, busBytes_replicate_transfer, busBytes]
  · funext i
    simp only [W5200Module.read_block, transferLoop_buf, Nat.zero_le, true_and,
      Nat.zero_add, Nat.sub_zero]
  · rw [W5200Module.read_block_avr, List.drop_left]
    rfl

/-- C11: in the AVR build the Variant B single-byte write makes exactly the calls of the
block write of length 1, and in the non-AVR build it puts the same bytes
`[a >> 8, a & 0xFF, 0x80, 0x01, b]` on the bus. The single-byte read does not match the
block read of length 1. In the AVR build it sends `[a >> 8, a & 0xFF, 0x00, 0x01, 0x00]`
and returns the answer to the fifth exchange, while the block read sends
`[a >> 8, a & 0xFF, 0x00, 0x00]`, without the length byte, and stores the answer to the
fourth. In the non-AVR build it sends the flag first, `[0x00, a >> 8, a & 0xFF, 0x01,
0x00]`, while the block read sends `[a >> 8, a & 0xFF, 0x00, 0x01, SPI_CS]`. -/
theorem W5200Module.single_vs_block {σ : Type} (B : Bus σ) (SPI_CS a b : Nat)
    (buf : Nat → Nat) (st : Spi σ) :
    (W5200Module.write B Build.avr a b st
        = (1, (W5200Module.write_block B Build.avr a (fun _ => b) 1 st).2)
      ∧ (W5200Module.write B Build.other a b st).2.log
          = st.log ++ [SpiOp.transferCS (u16 a >>> 8) false,
              SpiOp.transferCS (u16 a &&& 0xFF) false, SpiOp.transferCS 0x80 false,
              SpiOp.transferDefault 0x01 false, SpiOp.transferCS b true]
      ∧ (W5200Module.write_block B Build.other a (fun _ => b) 1 st).2.log
          = st.log ++ [SpiOp.transferCS (u16 a >>> 8) false,
              SpiOp.transferCS (u16 a &&& 0xFF) false, SpiOp.transferCS 0x80 false,
              SpiOp.transferCS 0x01 false, SpiOp.transferCS b true])
      ∧ ((W5200Module.read B Build.avr a st).2.log
          = st.log ++ [SpiOp.setSS, SpiOp.transfer (u16 a >>> 8),
              SpiOp.transfer (u16 a &&& 0xFF), SpiOp.transfer 0x00, SpiOp.transfer 0x01,
              SpiOp.transfer 0x00, SpiOp.resetSS]
        ∧ (W5200Module.read B Build.avr a st).1
          = (spiAnswers B [SpiOp.setSS, SpiOp.transfer (u16 a >>> 8),
              SpiOp.transfer (u16 a &&& 0xFF), SpiOp.transfer 0x00, SpiOp.transfer 0x01,
              SpiOp.transfer 0x00, SpiOp.resetSS] st).getD 5 0
        ∧ (W5200Module.read_block B Build.avr SPI_CS a buf 1 st).2.log
          = st.log ++ [SpiOp.setSS, SpiOp.transfer (u16 a >>> 8),
              SpiOp.transfer (u16 a &&& 0xFF), SpiOp.transfer 0x00, SpiOp.transfer 0x00,
              SpiOp.resetSS]
        ∧ (W5200Module.read_block B Build.avr SPI_CS a buf 1 st).1.2 0
          = (spiAnswers B [SpiOp.setSS, SpiOp.transfer (u16 a >>> 8),
              SpiOp.transfer (u16 a &&& 0xFF), SpiOp.transfer 0x00, SpiOp.transfer 0x00,
              SpiOp.resetSS] st).getD 4 0)
      ∧ ((W5200Module.read B Build.other a st).2.log
          = st.log ++ [SpiOp.transferCS 0x00 false, SpiOp.transferCS (u16 a >>> 8) false,
              SpiOp.transferCS (u16 a &&& 0xFF) false, SpiOp.transferDefault 0x01 false,
              SpiOp.transferCS 0x00 true]
        ∧ (W5200Module.read_block B Build.other SPI_CS a buf 1 st).2.log
          = st.log ++ [SpiOp.transferCS (u16 a >>> 8) false,
              SpiOp.transferCS (u16 a &&& 0xFF) false, SpiOp.transferCS 0x00 false,
              SpiOp.transferCS 0x01 false, SpiOp.transferDefault SPI_CS true]) := by
  refine ⟨⟨rfl, ?_, ?_⟩, ⟨?_, rfl, ?_, rfl⟩, ⟨?_, ?_⟩⟩
  · simp [W5200Module.write, spiAll_log, W5200_WRITE_FLAG]
  · rw [W5200Module.write_block_other]
    rfl
  · simp [W5200Module.read, spiAll_log, spi, W5200_READ_FLAG]
  · rw [W5200Module.read_block_avr]
    rfl
  · simp [W5200Module.read, spiAll_log, spi, W5200_READ_FLAG]
  · rw [W5200Module.read_block_other]
    rfl

/-! ## The probe of `exploratory_modewrite` -/

theorem spiAnswers_append {σ : Type} (B : Bus σ) (ops₁ ops₂ : List SpiOp) (st : Spi σ) :
    spiAnswers B (ops₁ ++ ops₂) st
      = spiAnswers B ops₁ st ++ spiAnswers B ops₂ (spiAll B ops₁ st) := by
  induction ops₁ generalizing st with
  | nil => rfl
  | cons op ops ih => simp [spiAnswers, spiAll, ih]

theorem ssReleases_replicate (n : Nat) (op : SpiOp) :
    ssReleases (List.replicate n op) = if op.releasesSS then n else 0 := by
  unfold ssReleases
  by_cases h : op.releasesSS = true <;> simp [List.countP_replicate, h]

/-- The calls made by `exploratory_modewrite` are those of the three acquisitions. -/
theorem exploratory_modewrite_state {σ : Type} (B : Bus σ) (bld : Build) (m : Nat)
    (st : Spi σ) :
    (exploratory_modewrite B bld m st).2
      = spiAll B ((probeAcquisitions bld (u8 m)).1 ++ (probeAcquisitions bld (u8 m)).2.1
          ++ (probeAcquisitions bld (u8 m)).2.2) st := by
  cases bld
  · simp only [exploratory_modewrite, probeAcquisitions, spiAll_append, List.map_const',
      List.length_range']
    rfl
  · simp only [exploratory_modewrite, probeAcquisitions, spiAll_append, List.map_const',
      List.length_range']
    rfl

/-- C17: `exploratory_modewrite(m)` makes the calls of three successive acquisitions,
each from `beginTransaction` to `endTransaction`: the first exchanges
`[0xF0, 0x00, 0x00, m]`, the second `[0x0F, 0x00, 0x00, 0x00]` and the result is the
answer to its fourth exchange, the third `m - 4` bytes `0x00` (none when `m < 4`), so
that `4 + (m - 4)` bytes follow the first frame. In the AVR build every acquisition has
one chip-select release. In the non-AVR build the first two have one, but every dummy
byte of the third is sent with `SPI_LAST`: the third acquisition has `m - 4` releases,
four for `m = 8` and 124 for `m = 0x80`. -/
theorem exploratory_modewrite_trace {σ : Type} (B : Bus σ) (bld : Build) (m : Nat)
    (st : Spi σ) :
    (exploratory_modewrite B bld m st).2.log
        = st.log ++ ((probeAcquisitions bld (u8 m)).1 ++ (probeAcquisitions bld (u8 m)).2.1
            ++ (probeAcquisitions bld (u8 m)).2.2)
      ∧ (exploratory_modewrite B bld m st).1
        = (spiAnswers B ((probeAcquisitions bld (u8 m)).1
              ++ (probeAcquisitions bld (u8 m)).2.1
              ++ (probeAcquisitions bld (u8 m)).2.2) st).getD (probeReadSlot bld) 0
      ∧ (busBytes (probeAcquisitions bld (u8 m)).1 = [0xF0, 0x00, 0x00, u8 m]
        ∧ busBytes (probeAcquisitions bld (u8 m)).2.1 = [0x0F, 0x00, 0x00, 0x00]
        ∧ busBytes (probeAcquisitions bld (u8 m)).2.2 = List.replicate (u8 m - 4) 0x00)
      ∧ (busBytes ((probeAcquisitions bld (u8 m)).2.1
            ++ (probeAcquisitions bld (u8 m)).2.2)).length = 4 + (u8 m - 4)
      ∧ (ssReleases (probeAcquisitions Build.avr (u8 m)).1 = 1
        ∧ ssReleases (probeAcquisitions Build.avr (u8 m)).2.1 = 1
        ∧ ssReleases (probeAcquisitions Build.avr (u8 m)).2.2 = 1)
      ∧ (ssReleases (probeAcquisitions Build.other (u8 m)).1 = 1
        ∧ ssReleases (probeAcquisitions Build.other (u8 m)).2.1 = 1
        ∧ ssReleases (probeAcquisitions Build.other (u8 m)).2.2 = u8 m - 4)
      ∧ ((probeAcquisitions Build.other 8).2.2
          = [SpiOp.beginTransaction, SpiOp.transferCS 0x00 true,
              SpiOp.transferCS 0x00 true, SpiOp.transferCS 0x00 true,
              SpiOp.transferCS 0x00 true, SpiOp.endTransaction]
        ∧ ssReleases (probeAcquisitions Build.other 8).2.2 = 4
        ∧ ssReleases (probeAcquisitions Build.other 0x80).2.2 = 124) := by
  have hb1 : ∀ n d, busBytes (List.replicate n (SpiOp.transferCS d true))
      = List.replicate n d := by
    intro n d
    induction n with
    | zero => rfl
    | succ n ih => simp [List.replicate_succ, busBytes, ih]
  refine ⟨?_, ?_, ?_, ?_, ?_, ?_, ⟨rfl, by decide, by decide⟩⟩
  · rw [exploratory_modewrite_state, spiAll_log]
  · cases bld
    · rw [spiAnswers_append, spiAnswers_append]
      rfl
    · rw [spiAnswers_append, spiAnswers_append]
      rfl
  · cases bld
    · refine ⟨rfl, rfl, ?_⟩
      simp [probeAcquisitions, busBytes_append, busBytes, busBytes_replicate_transfer]
    · refine ⟨rfl, rfl, ?_⟩
      simp [probeAcquisitions, busBytes_append, busBytes, hb1]
  · cases bld
    · simp [probeAcquisitions, busBytes_append, busBytes, busBytes_replicate_transfer]
      omega
    · simp [probeAcquisitions, busBytes_append, busBytes, hb1]
      omega
  · refine ⟨rfl, rfl, ?_⟩
    simp only [probeAcquisitions, ssReleases_append, ssReleases_replicate]
    rfl
  · refine ⟨rfl, rfl, ?_⟩
    simp only [probeAcquisitions, ssReleases_append, ssReleases_replicate]
    simp [ssReleases, SpiOp.releasesSS]

/-! ## Command executor -/

theorem cmdLoop_zero_after (nz rest : List Nat) (hnz : ∀ r ∈ nz, r ≠ 0) (n : Nat) :
    cmdLoop n (nz ++ 0 :: rest) = some (n + nz.length + 1) := by
  induction nz generalizing n with
  | nil => simp [cmdLoop]
  | cons r nz ih =>
    have hr : r ≠ 0 := hnz r (List.mem_cons_self _ _)
    have ht : ∀ q ∈ nz, q ≠ 0 := fun q hq => hnz q (List.mem_cons_of_mem _ hq)
    rw [List.cons_append, cmdLoop, if_pos hr, ih ht]
    simp only [List.length_cons]
    congr 1
    omega

theorem cmdLoop_never (reads : List Nat) (hall : ∀ r ∈ reads, r ≠ 0) (n : Nat) :
    cmdLoop n reads = none := by
  induction reads generalizing n with
  | nil => rfl
  | cons r reads ih =>
    have hr : r ≠ 0 := hall r (List.mem_cons_self _ _)
    have ht : ∀ q ∈ reads, q ≠ 0 := fun q hq => hall q (List.mem_cons_of_mem _ hq)
    rw [cmdLoop, if_pos hr]
    exact ih ht _

/-- C15: `execCmdSn` writes the command to the socket's command register once and then
only reads that register. When the reads return the non-zero values `nz` and then zero,
it returns after exactly `nz.length + 1` reads, whatever later reads would return. When
every read returns a non-zero value it has not returned after any number of reads: there
is no bound on the polling. -/
theorem execCmdSn_polls (s cmd : Nat) (nz rest reads : List Nat)
    (hnz : ∀ r ∈ nz, r ≠ 0) (hall : ∀ r ∈ reads, r ≠ 0) :
    execCmdSn (fun _ => nz ++ 0 :: rest) s cmd
        = some (Access.writeSnCR s cmd
            :: List.replicate (nz.length + 1) (Access.readSnCR s))
      ∧ execCmdSn (fun _ => reads) s cmd = none := by
  constructor
  · simp only [execCmdSn, cmdLoop_zero_after nz rest hnz 0, Nat.zero_add]
  · simp only [execCmdSn, cmdLoop_never reads hall 0]

/-- C15 at concrete reads: 1, 1, 0 returns after three reads, and 1, 1, 1 is still
polling. -/
theorem execCmdSn_polls_witness :
    ((∀ r ∈ [(1 : Nat), 1], r ≠ 0) ∧ (∀ r ∈ [(1 : Nat), 1, 1], r ≠ 0))
      ∧ (execCmdSn (fun _ => [1, 1] ++ 0 :: [5]) 2 0x20
          = some (Access.writeSnCR 2 0x20
              :: List.replicate ([(1 : Nat), 1].length + 1) (Access.readSnCR 2))
        ∧ execCmdSn (fun _ => [1, 1, 1]) 2 0x20 = none) :=
  ⟨⟨by decide, by decide⟩, execCmdSn_polls 2 0x20 [1, 1] [5] [1, 1, 1] (by decide) (by decide)⟩

/-! ## Debounced size reads: what a result certifies -/

/-- A result of the size loop entered after `n₀` reads: a non-zero result is the value of
the last two reads, a zero result the value of the last read. -/
theorem sizeLoop_result_aux (m : Nat) :
    ∀ (reads : List Nat), reads.length ≤ m →
    ∀ (val n₀ v n : Nat), sizeLoop val n₀ reads = some (v, n) →
      n₀ < n ∧ n - n₀ ≤ reads.length
        ∧ (v ≠ 0 → n₀ + 2 ≤ n ∧ reads[n - n₀ - 1]? = some v ∧ reads[n - n₀ - 2]? = some v)
        ∧ (v = 0 → reads[n - n₀ - 1]? = some 0) := by
  induction m with
  | zero =>
    intro reads hlen val n₀ v n h
    have : reads = [] := List.length_eq_zero.mp (by omega)
    subst this
    simp [sizeLoop] at h
  | succ m ih =>
    intro reads hlen
    intro val n₀ v n h
    match reads, hlen with
    | [], _ => simp [sizeLoop] at h
    | [r], _ =>
      by_cases hr : r = 0
      · by_cases hv : val = 0
        · subst hr; subst hv
          simp only [sizeLoop, ne_eq, not_true_eq_false, if_false, Option.some.injEq,
            Prod.mk.injEq] at h
          obtain ⟨rfl, rfl⟩ := h
          simp
        · subst hr
          simp [sizeLoop, hv] at h
      · simp [sizeLoop, hr] at h
    | r :: r' :: rest, hl =>
      by_cases hr : r = 0
      · subst hr
        by_cases hv : val = 0
        · subst hv
          simp only [sizeLoop, ne_eq, not_true_eq_false, if_false, Option.some.injEq,
            Prod.mk.injEq] at h
          obtain ⟨rfl, rfl⟩ := h
          simp
        · simp only [sizeLoop, ne_eq, not_true_eq_false, if_false, hv, not_false_eq_true,
            if_true] at h
          simp only [List.length_cons] at hl
          obtain ⟨h1, h2, h3, h4⟩ := ih (r' :: rest) (by simp only [List.length_cons]; omega)
            val (n₀ + 1) v n h
          simp only [List.length_cons] at h2 ⊢
          refine ⟨by omega, by omega, ?_, ?_⟩
          · intro hv0
            obtain ⟨g1, g2, g3⟩ := h3 hv0
            refine ⟨by omega, ?_, ?_⟩
            · rw [show n - n₀ - 1 = (n - (n₀ + 1) - 1) + 1 by omega, List.getElem?_cons_succ]
              exact g2
            · rw [show n - n₀ - 2 = (n - (n₀ + 1) - 2) + 1 by omega, List.getElem?_cons_succ]
              exact g3
          · intro hv0
            rw [show n - n₀ - 1 = (n - (n₀ + 1) - 1) + 1 by omega, List.getElem?_cons_succ]
            exact h4 hv0
      · by_cases hr' : r' = r
        · subst hr'
          simp only [sizeLoop, ne_eq, hr, not_false_eq_true, if_true, not_true_eq_false,
            if_false, Option.some.injEq, Prod.mk.injEq] at h
          obtain ⟨rfl, rfl⟩ := h
          refine ⟨by omega, by simp, ?_, ?_⟩
          · intro _
            refine ⟨by omega, ?_, ?_⟩
            · rw [show n₀ + 2 - n₀ - 1 = 0 + 1 by omega]
              simp
            · rw [show n₀ + 2 - n₀ - 2 = 0 by omega]
              simp
          · intro hv0
            exact absurd hv0 hr
        · simp only [sizeLoop, ne_eq, hr, not_false_eq_true, if_true, hr'] at h
          simp only [List.length_cons] at hl
          obtain ⟨h1, h2, h3, h4⟩ := ih rest (by omega) r' (n₀ + 2) v n h
          simp only [List.length_cons]
          refine ⟨by omega, by omega, ?_, ?_⟩
          · intro hv0
            obtain ⟨g1, g2, g3⟩ := h3 hv0
            refine ⟨by omega, ?_, ?_⟩
            · rw [show n - n₀ - 1 = (n - (n₀ + 2) - 1) + 1 + 1 by omega,
                List.getElem?_cons_succ, List.getElem?_cons_succ]
              exact g2
            · rw [show n - n₀ - 2 = (n - (n₀ + 2) - 2) + 1 + 1 by omega,
                List.getElem?_cons_succ, List.getElem?_cons_succ]
              exact g3
          · intro hv0
            rw [show n - n₀ - 1 = (n - (n₀ + 2) - 1) + 1 + 1 by omega,
              List.getElem?_cons_succ, List.getElem?_cons_succ]
            exact h4 hv0

/-- C19: whenever `getRXReceivedSize` or `getTXFreeSize` returns `v` after `n` reads of
the register, the `n` reads were available, and if `v` is non-zero the last two of them
(reads `n - 1` and `n`) both returned `v`, while if `v` is zero the last one returned
zero. -/
theorem size_result_confirmed (reads : List Nat) (s v n : Nat)
    (h : getRXReceivedSize (fun _ => reads) s = some (v, n)
      ∨ getTXFreeSize (fun _ => reads) s = some (v, n)) :
    0 < n ∧ n ≤ reads.length
      ∧ (v ≠ 0 → 2 ≤ n ∧ reads[n - 1]? = some v ∧ reads[n - 2]? = some v)
      ∧ (v = 0 → reads[n - 1]? = some 0) := by
  have h' : sizeLoop 0 0 reads = some (v, n) := by
    rcases h with h | h <;> exact h
  obtain ⟨h1, h2, h3, h4⟩ := sizeLoop_result_aux reads.length reads (Nat.le_refl _) 0 0 v n h'
  simp only [Nat.sub_zero, Nat.zero_add] at h2 h3 h4
  exact ⟨h1, h2, h3, h4⟩

/-- C19 at the reads 3, 7, 7, 7, on which 7 is returned after four reads. -/
theorem size_result_confirmed_witness :
    (getRXReceivedSize (fun _ => [3, 7, 7, 7]) 0 = some (7, 4)
        ∨ getTXFreeSize (fun _ => [3, 7, 7, 7]) 0 = some (7, 4))
      ∧ (0 < 4 ∧ 4 ≤ [(3 : Nat), 7, 7, 7].length
        ∧ ((7 : Nat) ≠ 0 → 2 ≤ 4 ∧ [(3 : Nat), 7, 7, 7][4 - 1]? = some 7
            ∧ [(3 : Nat), 7, 7, 7][4 - 2]? = some 7)
        ∧ ((7 : Nat) = 0 → [(3 : Nat), 7, 7, 7][4 - 1]? = some 0)) :=
  ⟨Or.inl (by decide), size_result_confirmed [3, 7, 7, 7] 0 7 4 (Or.inl (by decide))⟩

/-! ## Split and single block accesses -/

theorem blockAccesses_append (l₁ l₂ : List Access) :
    blockAccesses (l₁ ++ l₂) = blockAccesses l₁ ++ blockAccesses l₂ := by
  induction l₁ with
  | nil => rfl
  | cons a rest ih => cases a <;> simp [blockAccesses, ih]

/-- The block writes of `send_data_processing_offset`: two when the data runs past the
end of the window, one otherwise. -/
theorem send_blocks (L : Layout) (b : Build) (c : Chip) (s data_offset : Nat)
    (data : Nat → Nat) (len k : Nat) (hk : k ≤ 15) (hS : L.SSIZE = 2 ^ k)
    (hM : L.SMASK = L.SSIZE - 1) (hbase : L.get_sock_tx_addr s + L.SSIZE ≤ 65536)
    (hlen : len ≤ L.SSIZE) :
    blockAccesses (send_data_processing_offset L b c s data_offset data len).log
      = blockAccesses c.log
        ++ (if ((readSnTX_WR c s).1 + data_offset) % L.SSIZE + len > L.SSIZE
            then [(L.get_sock_tx_addr s + ((readSnTX_WR c s).1 + data_offset) % L.SSIZE,
                    L.SSIZE - ((readSnTX_WR c s).1 + data_offset) % L.SSIZE),
                  (L.get_sock_tx_addr s,
                    len - (L.SSIZE - ((readSnTX_WR c s).1 + data_offset) % L.SSIZE))]
            else [(L.get_sock_tx_addr s + ((readSnTX_WR c s).1 + data_offset) % L.SSIZE,
                    len)]) := by
  have hW := two_pow_le_of_le_15 hk
  have hWpos : 0 < 2 ^ k := Nat.two_pow_pos k
  simp only [send_data_processing_offset, readSnTX_WR, writeSnTX_WR, write]
  rw [hM, hS, mask_eq_mod hk]
  set x := u16 (c.SnTX_WR s) + data_offset with hx
  set o := x % 2 ^ k with ho
  have ho_lt : o < 2 ^ k := Nat.mod_lt _ hWpos
  rw [hS] at hlen hbase
  have hprom : addPromoted b o len = o + len := by
    cases b
    · simp only [addPromoted]; exact u16_of_lt (by omega)
    · rfl
  have hdst : u16 (u16 (o + L.get_sock_tx_addr s)) = L.get_sock_tx_addr s + o := by
    rw [u16_u16, u16_of_lt (by omega)]; omega
  have hb : u16 (L.get_sock_tx_addr s) = L.get_sock_tx_addr s := u16_of_lt (by omega)
  rw [hprom, hdst, hb]
  split
  · rename_i hgt
    have hsize : sub16 (2 ^ k) o = 2 ^ k - o := by
      unfold sub16 u16; omega
    have hrest : sub16 len (2 ^ k - o) = len - (2 ^ k - o) := by
      unfold sub16 u16; omega
    simp [hsize, hrest, blockAccesses_append, blockAccesses]
  · rename_i hle
    simp [blockAccesses_append, blockAccesses]

/-- The block reads of `read_data`: two when the data runs past the end of the window,
one otherwise. -/
theorem read_data_blocks (L : Layout) (b : Build) (c : Chip) (s src : Nat)
    (dst : Nat → Nat) (len k : Nat) (hk : k ≤ 15) (hR : L.RSIZE = 2 ^ k)
    (hM : L.RMASK = L.RSIZE - 1) (hbase : L.get_sock_rx_addr s + L.RSIZE ≤ 65536)
    (hlen : len ≤ L.RSIZE) :
    blockAccesses (read_data L b c s src dst len).2.log
      = blockAccesses c.log
        ++ (if src % L.RSIZE + len > L.RSIZE
            then [(L.get_sock_rx_addr s + src % L.RSIZE, L.RSIZE - src % L.RSIZE),
                  (L.get_sock_rx_addr s, len - (L.RSIZE - src % L.RSIZE))]
            else [(L.get_sock_rx_addr s + src % L.RSIZE, len)]) := by
  have hW := two_pow_le_of_le_15 hk
  have hWpos : 0 < 2 ^ k := Nat.two_pow_pos k
  simp only [read_data, read]
  rw [hM, hR, Nat.and_pow_two_sub_one_eq_mod]
  set o := src % 2 ^ k with ho
  have ho_lt : o < 2 ^ k := Nat.mod_lt _ hWpos
  rw [hR] at hlen hbase
  have hprom : addPromoted b o len = o + len := by
    cases b
    · simp only [addPromoted]; exact u16_of_lt (by omega)
    · rfl
  have hsrc : u16 (u16 (L.get_sock_rx_addr s + o)) = L.get_sock_rx_addr s + o := by
    rw [u16_u16, u16_of_lt (by omega)]
  have hb : u16 (L.get_sock_rx_addr s) = L.get_sock_rx_addr s := u16_of_lt (by omega)
  rw [hprom]
  split
  · rename_i hgt
    have hsize : sub16 (2 ^ k) o = 2 ^ k - o := by
      unfold sub16 u16; omega
    have hrest : sub16 len (2 ^ k - o) = len - (2 ^ k - o) := by
      unfold sub16 u16; omega
    simp [hsize, hrest, hsrc, hb, blockAccesses_append, blockAccesses]
  · rename_i hle
    simp [hsrc, blockAccesses_append, blockAccesses]

/-- C16: with the window size `W = 2^k` a `uint16_t`, the mask `W - 1`, the window inside
the 16-bit address space and `len ≤ W`, `send_data_processing_offset` (with
`p = Sn_TX_WR + data_offset`, `W = SSIZE`) and `read_data` (with `p = src`, `W = RSIZE`)
issue two block accesses exactly when `(p mod W) + len > W`, the first of
`W - (p mod W)` bytes at `base + (p mod W)`, the second of `len - (W - (p mod W))` bytes
at the window base, both sizes positive and adding up to `len`; otherwise they issue one
block access of `len` bytes at `base + (p mod W)`. -/
theorem block_access_split (L : Layout) (b : Build) (c : Chip) (s data_offset src : Nat)
    (data dst : Nat → Nat) (len k k' : Nat)
    (hk : k ≤ 15) (hS : L.SSIZE = 2 ^ k) (hSM : L.SMASK = L.SSIZE - 1)
    (hSbase : L.get_sock_tx_addr s + L.SSIZE ≤ 65536) (hSlen : len ≤ L.SSIZE)
    (hk' : k' ≤ 15) (hR : L.RSIZE = 2 ^ k') (hRM : L.RMASK = L.RSIZE - 1)
    (hRbase : L.get_sock_rx_addr s + L.RSIZE ≤ 65536) (hRlen : len ≤ L.RSIZE) :
    (blockAccesses (send_data_processing_offset L b c s data_offset data len).log
        = blockAccesses c.log
          ++ (if ((readSnTX_WR c s).1 + data_offset) % L.SSIZE + len > L.SSIZE
              then [(L.get_sock_tx_addr s + ((readSnTX_WR c s).1 + data_offset) % L.SSIZE,
                      L.SSIZE - ((readSnTX_WR c s).1 + data_offset) % L.SSIZE),
                    (L.get_sock_tx_addr s,
                      len - (L.SSIZE - ((readSnTX_WR c s).1 + data_offset) % L.SSIZE))]
              else [(L.get_sock_tx_addr s + ((readSnTX_WR c s).1 + data_offset) % L.SSIZE,
                      len)])
      ∧ (((readSnTX_WR c s).1 + data_offset) % L.SSIZE + len > L.SSIZE →
          0 < L.SSIZE - ((readSnTX_WR c s).1 + data_offset) % L.SSIZE
            ∧ 0 < len - (L.SSIZE - ((readSnTX_WR c s).1 + data_offset) % L.SSIZE)
            ∧ (L.SSIZE - ((readSnTX_WR c s).1 + data_offset) % L.SSIZE)
                + (len - (L.SSIZE - ((readSnTX_WR c s).1 + data_offset) % L.SSIZE))
              = len))
      ∧ (blockAccesses (read_data L b c s src dst len).2.log
        = blockAccesses c.log
          ++ (if src % L.RSIZE + len > L.RSIZE
              then [(L.get_sock_rx_addr s + src % L.RSIZE, L.RSIZE - src % L.RSIZE),
                    (L.get_sock_rx_addr s, len - (L.RSIZE - src % L.RSIZE))]
              else [(L.get_sock_rx_addr s + src % L.RSIZE, len)])
      ∧ (src % L.RSIZE + len > L.RSIZE →
          0 < L.RSIZE - src % L.RSIZE ∧ 0 < len - (L.RSIZE - src % L.RSIZE)
            ∧ (L.RSIZE - src % L.RSIZE) + (len - (L.RSIZE - src % L.RSIZE)) = len)) := by
  have hSpos : 0 < L.SSIZE := by rw [hS]; exact Nat.two_pow_pos k
  have hRpos : 0 < L.RSIZE := by rw [hR]; exact Nat.two_pow_pos k'
  refine ⟨⟨send_blocks L b c s data_offset data len k hk hS hSM hSbase hSlen, ?_⟩,
    ⟨read_data_blocks L b c s src dst len k' hk' hR hRM hRbase hRlen, ?_⟩⟩
  · intro h
    have hlt : ((readSnTX_WR c s).1 + data_offset) % L.SSIZE < L.SSIZE := Nat.mod_lt _ hSpos
    omega
  · intro h
    have hlt : src % L.RSIZE < L.RSIZE := Nat.mod_lt _ hRpos
    omega

/-- C16 at a concrete input: socket 1 of the 2048-byte layout, TX pointer 2046 with
offset 1 and RX pointer 2047, five bytes, which split in both directions. -/
theorem block_access_split_witness :
    (11 ≤ 15 ∧ demoLayout.SSIZE = 2 ^ 11 ∧ demoLayout.SMASK = demoLayout.SSIZE - 1
        ∧ demoLayout.get_sock_tx_addr 1 + demoLayout.SSIZE ≤ 65536 ∧ 5 ≤ demoLayout.SSIZE
        ∧ 11 ≤ 15 ∧ demoLayout.RSIZE = 2 ^ 11 ∧ demoLayout.RMASK = demoLayout.RSIZE - 1
        ∧ demoLayout.get_sock_rx_addr 1 + demoLayout.RSIZE ≤ 65536 ∧ 5 ≤ demoLayout.RSIZE)
      ∧ ((blockAccesses (send_data_processing_offset demoLayout Build.other
              (demoChip 2046 0) 1 1 (fun i => i) 5).log
          = blockAccesses (demoChip 2046 0).log
            ++ (if ((readSnTX_WR (demoChip 2046 0) 1).1 + 1) % demoLayout.SSIZE + 5
                  > demoLayout.SSIZE
                then [(demoLayout.get_sock_tx_addr 1
                          + ((readSnTX_WR (demoChip 2046 0) 1).1 + 1) % demoLayout.SSIZE,
                        demoLayout.SSIZE
                          - ((readSnTX_WR (demoChip 2046 0) 1).1 + 1) % demoLayout.SSIZE),
                      (demoLayout.get_sock_tx_addr 1,
                        5 - (demoLayout.SSIZE
                          - ((readSnTX_WR (demoChip 2046 0) 1).1 + 1) % demoLayout.SSIZE))]
                else [(demoLayout.get_sock_tx_addr 1
                          + ((readSnTX_WR (demoChip 2046 0) 1).1 + 1) % demoLayout.SSIZE,
                        5)])
        ∧ (((readSnTX_WR (demoChip 2046 0) 1).1 + 1) % demoLayout.SSIZE + 5
              > demoLayout.SSIZE →
            0 < demoLayout.SSIZE
                - ((readSnTX_WR (demoChip 2046 0) 1).1 + 1) % demoLayout.SSIZE
              ∧ 0 < 5 - (demoLayout.SSIZE
                - ((readSnTX_WR (demoChip 2046 0) 1).1 + 1) % demoLayout.SSIZE)
              ∧ (demoLayout.SSIZE
                  - ((readSnTX_WR (demoChip 2046 0) 1).1 + 1) % demoLayout.SSIZE)
                  + (5 - (demoLayout.SSIZE
                    - ((readSnTX_WR (demoChip 2046 0) 1).1 + 1) % demoLayout.SSIZE))
                = 5))
        ∧ (blockAccesses (read_data demoLayout Build.other (demoChip 2046 0) 1 2047
              (fun i => i) 5).2.log
          = blockAccesses (demoChip 2046 0).log
            ++ (if 2047 % demoLayout.RSIZE + 5 > demoLayout.RSIZE
                then [(demoLayout.get_sock_rx_addr 1 + 2047 % demoLayout.RSIZE,
                        demoLayout.RSIZE - 2047 % demoLayout.RSIZE),
                      (demoLayout.get_sock_rx_addr 1,
                        5 - (demoLayout.RSIZE - 2047 % demoLayout.RSIZE))]
                else [(demoLayout.get_sock_rx_addr 1 + 2047 % demoLayout.RSIZE, 5)])
        ∧ (2047 % demoLayout.RSIZE + 5 > demoLayout.RSIZE →
            0 < demoLayout.RSIZE - 2047 % demoLayout.RSIZE
              ∧ 0 < 5 - (demoLayout.RSIZE - 2047 % demoLayout.RSIZE)
              ∧ (demoLayout.RSIZE - 2047 % demoLayout.RSIZE)
                  + (5 - (demoLayout.RSIZE - 2047 % demoLayout.RSIZE)) = 5))) :=
  ⟨⟨by decide, by decide, by decide, by decide, by decide, by decide, by decide, by decide,
      by decide, by decide⟩,
    block_access_split demoLayout Build.other (demoChip 2046 0) 1 1 2047 (fun i => i)
      (fun i => i) 5 11 11 (by decide) (by decide) (by decide) (by decide) (by decide)
      (by decide) (by decide) (by decide) (by decide) (by decide)⟩

/-! ## Autodetection on a bus that echoes mode writes -/

theorem or_and_self_left (a b : Nat) : (a ||| b) &&& a = a := by
  apply Nat.eq_of_testBit_eq
  intro i
  rw [Nat.testBit_and, Nat.testBit_or]
  cases a.testBit i <;> cases b.testBit i <;> rfl

theorem u8_of_lt {n : Nat} (h : n < 256) : u8 n = n := by
  unfold u8; omega

theorem u8_u8 (n : Nat) : u8 (u8 n) = u8 n := by
  unfold u8; omega

/-- Idle bytes `0x00` sent outside a frame leave the simulated mode register device as it
is. -/
theorem modeRegisterDevice_idle (latch : Nat → Nat) (mr k : Nat) (log : List SpiOp) :
    (spiAll (modeRegisterDevice latch) (List.replicate k (SpiOp.transfer 0x00))
        ⟨([], mr), log⟩).dev = ([], mr)
      ∧ (spiAll (modeRegisterDevice latch) (List.replicate k (SpiOp.transferCS 0x00 true))
        ⟨([], mr), log⟩).dev = ([], mr) := by
  induction k generalizing log with
  | zero => exact ⟨rfl, rfl⟩
  | succ k ih =>
    constructor
    · exact (ih (log ++ [SpiOp.transfer 0x00])).1
    · exact (ih (log ++ [SpiOp.transferCS 0x00 true])).2

/-- The probe on the simulated mode register device, started between two frames: the
readback is what the write frame latched, and the device is between two frames again. -/
theorem modeRegisterDevice_probe (latch : Nat → Nat) (bld : Build) (m : Nat)
    (s : Spi (List Nat × Nat)) (hs : s.dev.1 = []) :
    (exploratory_modewrite (modeRegisterDevice latch) bld m s).2.dev.1 = []
      ∧ (exploratory_modewrite (modeRegisterDevice latch) bld m s).1 = u8 (latch (u8 m)) := by
  obtain ⟨⟨fr, mr⟩, log⟩ := s
  simp only at hs
  subst hs
  cases bld
  · simp only [exploratory_modewrite, List.map_const', List.length_range', spiAll_append]
    constructor
    · exact congrArg Prod.fst (modeRegisterDevice_idle latch (latch (u8 m)) (u8 m - 4) _).1
    · rfl
  · simp only [exploratory_modewrite, List.map_const', List.length_range', spiAll_append]
    constructor
    · exact congrArg Prod.fst (modeRegisterDevice_idle latch (latch (u8 m)) (u8 m - 4) _).2
    · rfl

/-- C8 as amended: take any bus, in either build and for any mode bits with `RST`
non-zero and `PINGBLOCK`, `PPOE` bytes without the `RST` bit, on which the readback of
`exploratory_modewrite` is the probe byte sent, and 0 when that byte has the `RST` bit
set; the property is asked of the bus states `I` that the set-up leads to and the probe
keeps. On such a bus `autodetect` returns `W5100Module`. On a bus that reads the `RST`
probe back unchanged it returns `W5200Module`. -/
theorem autodetect_self_clearing_echo {σ σ' : Type} (B : Bus σ) (B' : Bus σ')
    (bld : Build) (M : ModeBits) (st : Spi σ) (st' : Spi σ') (I : Spi σ → Prop)
    (hRST : M.RST ≠ 0 ∧ M.RST < 256)
    (hPB : M.PINGBLOCK < 256 ∧ M.PINGBLOCK &&& M.RST = 0)
    (hPP : M.PPOE < 256 ∧ M.PPOE &&& M.RST = 0)
    (hI : I (autodetectSetup B bld st))
    (hecho : ∀ m s, I s → I (exploratory_modewrite B bld m s).2
      ∧ (exploratory_modewrite B bld m s).1 = if u8 m &&& M.RST ≠ 0 then 0 else u8 m)
    (hecho' : (exploratory_modewrite B' bld M.RST (autodetectSetup B' bld st')).1
      = u8 M.RST) :
    (autodetect B bld M st).1 = Variant.W5100Module
      ∧ (autodetect B' bld M st').1 = Variant.W5200Module := by
  have hor : M.RST ||| M.PPOE < 256 := Nat.or_lt_two_pow (n := 8) hRST.2 hPP.1
  have e1 : (if u8 M.RST &&& M.RST ≠ 0 then 0 else u8 M.RST) = 0 := by
    rw [u8_of_lt hRST.2, Nat.and_self, if_pos hRST.1]
  have e2 : (if u8 M.PINGBLOCK &&& M.RST ≠ 0 then 0 else u8 M.PINGBLOCK) = M.PINGBLOCK := by
    rw [u8_of_lt hPB.1, hPB.2]
    simp
  have e3 : (if u8 M.PPOE &&& M.RST ≠ 0 then 0 else u8 M.PPOE) = M.PPOE := by
    rw [u8_of_lt hPP.1, hPP.2]
    simp
  have e4 : (if u8 (M.RST ||| M.PPOE) &&& M.RST ≠ 0 then 0 else u8 (M.RST ||| M.PPOE))
      = 0 := by
    rw [u8_of_lt hor, or_and_self_left, if_pos hRST.1]
  obtain ⟨i1, r1⟩ := hecho M.RST _ hI
  obtain ⟨i2, r2⟩ := hecho M.PINGBLOCK _ i1
  obtain ⟨i3, r3⟩ := hecho M.PPOE _ i2
  obtain ⟨_, r4⟩ := hecho (M.RST ||| M.PPOE) _ i3
  rw [e1] at r1
  rw [e2] at r2
  rw [e3] at r3
  rw [e4] at r4
  constructor
  · simp only [autodetect]
    rw [if_pos r1, if_pos r2, if_pos r3, if_pos r4]
  · simp only [autodetect]
    rw [if_neg]
    rw [hecho', u8_of_lt hRST.2]
    exact hRST.1

/-- C8 as amended, at the two simulated devices with the W5100 mode bits: the one whose
reset bit clears itself has the readback property from every state between two frames,
the other echoes `RST` back. -/
theorem autodetect_self_clearing_echo_witness :
    ((w5100ModeBits.RST ≠ 0 ∧ w5100ModeBits.RST < 256)
        ∧ (w5100ModeBits.PINGBLOCK < 256 ∧ w5100ModeBits.PINGBLOCK &&& w5100ModeBits.RST = 0)
        ∧ (w5100ModeBits.PPOE < 256 ∧ w5100ModeBits.PPOE &&& w5100ModeBits.RST = 0)
        ∧ (autodetectSetup selfClearingDevice Build.avr ⟨([], 5), []⟩).dev.1 = []
        ∧ (∀ m s, s.dev.1 = [] →
            (exploratory_modewrite selfClearingDevice Build.avr m s).2.dev.1 = []
              ∧ (exploratory_modewrite selfClearingDevice Build.avr m s).1
                = if u8 m &&& w5100ModeBits.RST ≠ 0 then 0 else u8 m)
        ∧ (exploratory_modewrite echoDevice Build.avr w5100ModeBits.RST
            (autodetectSetup echoDevice Build.avr ⟨([], 5), []⟩)).1 = u8 w5100ModeBits.RST)
      ∧ ((autodetect selfClearingDevice Build.avr w5100ModeBits ⟨([], 5), []⟩).1
          = Variant.W5100Module
        ∧ (autodetect echoDevice Build.avr w5100ModeBits ⟨([], 5), []⟩).1
          = Variant.W5200Module) :=
  have hprobe : ∀ m (s : Spi (List Nat × Nat)), s.dev.1 = [] →
      (exploratory_modewrite selfClearingDevice Build.avr m s).2.dev.1 = []
        ∧ (exploratory_modewrite selfClearingDevice Build.avr m s).1
          = if u8 m &&& w5100ModeBits.RST ≠ 0 then 0 else u8 m := by
    intro m s hs
    obtain ⟨h1, h2⟩ := modeRegisterDevice_probe
      (fun data => if data &&& 0x80 ≠ 0 then 0 else data) Build.avr m s hs
    refine ⟨h1, ?_⟩
    have h2' : (exploratory_modewrite selfClearingDevice Build.avr m s).1
        = u8 (if u8 m &&& 0x80 ≠ 0 then 0 else u8 m) := h2
    rw [h2']
    show u8 (if u8 m &&& 0x80 ≠ 0 then 0 else u8 m) = if u8 m &&& 0x80 ≠ 0 then 0 else u8 m
    split
    · rfl
    · exact u8_u8 m
  have hech : (exploratory_modewrite echoDevice Build.avr w5100ModeBits.RST
      (autodetectSetup echoDevice Build.avr ⟨([], 5), []⟩)).1 = u8 w5100ModeBits.RST :=
    (modeRegisterDevice_probe (fun data => data) Build.avr w5100ModeBits.RST _ rfl).2
  ⟨⟨⟨by decide, by decide⟩, ⟨by decide, by decide⟩, ⟨by decide, by decide⟩, rfl, hprobe, hech⟩,
    autodetect_self_clearing_echo selfClearingDevice echoDevice Build.avr w5100ModeBits
      ⟨([], 5), []⟩ ⟨([], 5), []⟩ (fun s => s.dev.1 = [])
      ⟨by decide, by decide⟩ ⟨by decide, by decide⟩ ⟨by decide, by decide⟩ rfl hprobe hech⟩

end W5100
